import Mathlib

/-!
# LibyaFPL — formal model of the core scoring / tournament / backfill logic

A shallow embedding, in Lean 4, of the algorithmic core of the LibyaFPL
web application:

* `core/the100.py` — live-points calculation (captaincy resolution,
  auto-substitution simulation, projected-bonus assignment) and the
  qualification/elimination phase bookkeeping of "The 100" league;
* `core/backfill.py` — gap detection and the gameweek backfill walk for
  the team-based leagues (H2H league-points rule included);
* `models.py` — the persistence helpers relevant to the elimination
  registry and the team-league standings lookup.

Python dictionaries are modelled as association lists over `Nat` keys,
machine integers as `Int`/`Nat` (Python integers are unbounded, so no
wrap-around modelling is needed), and fallible lookups as `Option`.
-/

set_option autoImplicit false

namespace LibyaFPL

/-! ## Association-list helpers (Python `dict.get` analogues) -/

/-- First-match lookup in an association list, mirroring Python `d.get(k)`. -/
def alookup {α : Type} : List (Nat × α) → Nat → Option α
  | [], _ => none
  | (k', v) :: rest, k => if k' = k then some v else alookup rest k

/-- Lookup with a default, mirroring Python `d.get(k, default)`. -/
def alookupD {α : Type} (l : List (Nat × α)) (k : Nat) (d : α) : α :=
  (alookup l k).getD d

/-! ## Data model for the live scoring calculator (`core/the100.py`) -/

/-- A fixture row as consumed by `the100.py` (fields actually read there). -/
structure Fixture where
  fid : Nat
  team_h : Nat
  team_a : Nat
  started : Bool
  finished : Bool
  finished_provisional : Bool
  kickoff_time : Option Nat
  deriving DecidableEq, Repr

/-- One roster slot (`picks[i]` in the picks endpoint payload). -/
structure Pick where
  element : Nat
  is_captain : Bool
  is_vice_captain : Bool
  deriving DecidableEq, Repr

/-- Live per-player stats after bonus merging (`live_elements[pid]`). -/
structure LiveStat where
  total_points : Int
  minutes : Nat
  deriving DecidableEq, Repr

/-- Static player info (`player_info[pid]`): position class and team id. -/
structure PInfo where
  position : Nat
  team : Nat
  deriving DecidableEq, Repr

/-- Python `player_info.get(pid, dict()).get(position, 0)` — the `pos_of` helper. -/
def pos_of (player_info : List (Nat × PInfo)) (eid : Nat) : Nat :=
  ((alookup player_info eid).map PInfo.position).getD 0

/-- Python `player_info.get(pid, dict()).get(team)` — `none` when the player is unknown. -/
def team_of (player_info : List (Nat × PInfo)) (eid : Nat) : Option Nat :=
  (alookup player_info eid).map PInfo.team

/-- Python `live_elements.get(pid, dict())` with the per-field defaults used by the code
(`total_points` defaults to 0, `minutes` defaults to 0). -/
def live_stat (live : List (Nat × LiveStat)) (eid : Nat) : LiveStat :=
  alookupD live eid ⟨0, 0⟩

/-- Helper `are_all_team_fixtures_done` from `calculate_live_points`
(`the100.py:262-269`): every fixture of the team must have `started`
set, or have a null `kickoff_time` (postponed).  A `none` team id matches
no fixture, so the result is `true` (Python `int == None` is `False`).
Note the implementation tests `started`, not `finished`. -/
def are_all_team_fixtures_done (fixtures : List Fixture) (team_id : Option Nat) : Bool :=
  let team_fixtures := fixtures.filter
    (fun f => team_id = some f.team_h || team_id = some f.team_a)
  team_fixtures.all (fun f => f.started || f.kickoff_time.isNone)

/-- Predicate `formation_ok` from `calculate_auto_subs` (`the100.py:332-333`). -/
def formation_ok (d m f g : Int) : Bool :=
  decide (g = 1) && decide (3 ≤ d) && decide (d ≤ 5) &&
    decide (2 ≤ m) && decide (m ≤ 5) && decide (1 ≤ f) && decide (f ≤ 3)

/-! ## Auto-substitution simulator (`the100.py:321-399`)

The Python loop carries mutable state (`used_bench_ids`, `sub_points`, the
running formation counters `d m f g`).  We thread that state explicitly and
additionally record every accepted swap (starter id, bench id, counters
after the swap) — the recorded trace is needed to state the formation
invariant; the points result is unchanged by the instrumentation. -/

/-- One accepted bench-for-starter swap, with the formation counters as they
stand immediately after the swap was applied. -/
structure SwapRec where
  s_id : Nat
  b_id : Nat
  d : Int
  m : Int
  f : Int
  g : Int
  deriving DecidableEq, Repr

/-- The mutable state of the auto-substitution scan. -/
structure SubState where
  used : List Nat
  pts : Int
  d : Int
  m : Int
  f : Int
  g : Int
  swaps : List SwapRec
  deriving DecidableEq, Repr

/-- The decrement/increment applied to one formation counter by a simulated
swap (`d2 -= 1` for the leaving starter's position class, `d2 += 1` for the
entering bench player's): `adjust_count p s_pos b_pos x` is the new value of
the counter for position class `p`. -/
def adjust_count (p s_pos b_pos : Nat) (x : Int) : Int :=
  (if s_pos = p then x - 1 else x) + (if b_pos = p then 1 else 0)

/-- The inner `for b in bench` scan of `calculate_auto_subs` for one
non-playing starter `s_id`.  Mirrors the branch order of the source:
used-bench skip, GK/outfield mismatch skip, reserve (not played, team not
done), DNP skip (not played, team done), and the formation-gated swap. -/
def scanBench (player_info : List (Nat × PInfo)) (live : List (Nat × LiveStat))
    (team_done_fn : Option Nat → Bool) (s_id : Nat) :
    SubState → List Pick → SubState
  | st, [] => st
  | st, b :: rest =>
    let b_id := b.element
    if b_id ∈ st.used then
      scanBench player_info live team_done_fn s_id st rest
    else
      let s_pos := pos_of player_info s_id
      let b_pos := pos_of player_info b_id
      let b_min := (live_stat live b_id).minutes
      let b_done := team_done_fn (team_of player_info b_id)
      if (s_pos = 1 ∧ b_pos ≠ 1) ∨ (s_pos ≠ 1 ∧ b_pos = 1) then
        scanBench player_info live team_done_fn s_id st rest
      else if b_min = 0 ∧ b_done = false then
        { st with used := st.used ++ [b_id] }
      else if b_min = 0 ∧ b_done = true then
        scanBench player_info live team_done_fn s_id st rest
      else
        let d2 := adjust_count 2 s_pos b_pos st.d
        let m2 := adjust_count 3 s_pos b_pos st.m
        let f2 := adjust_count 4 s_pos b_pos st.f
        let g2 := adjust_count 1 s_pos b_pos st.g
        if formation_ok d2 m2 f2 g2 then
          { used := st.used ++ [b_id]
            pts := st.pts + (live_stat live b_id).total_points
            d := d2, m := m2, f := f2, g := g2
            swaps := st.swaps ++ [⟨s_id, b_id, d2, m2, f2, g2⟩] }
        else
          scanBench player_info live team_done_fn s_id st rest

/-- Count of starters whose position class is `pos` (the `d m f g` seeds). -/
def starter_count (player_info : List (Nat × PInfo)) (starters : List Pick)
    (pos : Nat) : Int :=
  ((starters.filter (fun p => pos_of player_info p.element = pos)).length : Int)

/-- The full auto-substitution scan of `calculate_auto_subs`, returning the
final state (points, counters, used bench ids, accepted-swap trace). -/
def calculate_auto_subs_run (picks : List Pick) (live : List (Nat × LiveStat))
    (player_info : List (Nat × PInfo)) (team_done_fn : Option Nat → Bool) : SubState :=
  let starters := picks.take 11
  let bench := picks.drop 11
  let d := starter_count player_info starters 2
  let m := starter_count player_info starters 3
  let f := starter_count player_info starters 4
  let g := starter_count player_info starters 1
  let non_playing := starters.filter (fun p =>
    decide ((live_stat live p.element).minutes = 0) &&
      team_done_fn (team_of player_info p.element))
  non_playing.foldl
    (fun st s => scanBench player_info live team_done_fn s.element st bench)
    ⟨[], 0, d, m, f, g, []⟩

/-- Function `calculate_auto_subs` (`the100.py:321-399`): the points added by bench
players who replace non-playing starters.  The `fixtures` argument is kept
from the source signature (the body only uses `team_done_fn`). -/
def calculate_auto_subs (picks : List Pick) (live : List (Nat × LiveStat))
    (player_info : List (Nat × PInfo)) (_fixtures : List Fixture)
    (team_done_fn : Option Nat → Bool) : Int :=
  (calculate_auto_subs_run picks live player_info team_done_fn).pts

/-! ## Live points for one manager (`the100.py:252-318`) -/

/-- Picks-endpoint payload fields read by `calculate_live_points`. -/
structure PicksData where
  picks : List Pick
  active_chip : Option String
  event_transfers_cost : Int
  deriving DecidableEq, Repr

/-- The per-pick multiplier branch of the `for pick in active_picks` loop of
`calculate_live_points` (`the100.py:288-310`), factored out verbatim:
captain branch, vice-captain branch, default 1. -/
def live_pick_mult (chip : Option String) (live : List (Nat × LiveStat))
    (player_info : List (Nat × PInfo)) (fixtures : List Fixture)
    (captain_played : Bool) (captain_team_done : Bool) (pick : Pick) : Int :=
  if pick.is_captain then
    if captain_played then (if chip = some "3xc" then 3 else 2)
    else if captain_team_done then 0
    else 1
  else if pick.is_vice_captain then
    if captain_team_done && !captain_played then
      let vc_minutes := (live_stat live pick.element).minutes
      let vc_team_done :=
        match team_of player_info pick.element with
        | some t => are_all_team_fixtures_done fixtures (some t)
        | none => false
      if vc_minutes > 0 then (if chip = some "3xc" then 3 else 2)
      else if vc_team_done then 0
      else 1
    else 1
  else 1

/-- Function `calculate_live_points` (`the100.py:252-318`).  `none` models a falsy
`picks_data`.  The captain context (played / team-done) is computed once,
exactly as in the source, then each counted pick contributes
`points × multiplier`; auto-subs are added unless bench boost is active and
the transfer hit is subtracted at the end. -/
def calculate_live_points (picks_data : Option PicksData)
    (live : List (Nat × LiveStat)) (player_info : List (Nat × PInfo))
    (fixtures : List Fixture) : Int :=
  match picks_data with
  | none => 0
  | some pd =>
    let picks := pd.picks
    let chip := pd.active_chip
    let hits := pd.event_transfers_cost
    let captain_id := (picks.find? (fun p => p.is_captain)).map Pick.element
    let captain_minutes : Nat :=
      match captain_id with
      | some cid => (live_stat live cid).minutes
      | none => 0
    let captain_team :=
      match captain_id with
      | some cid => team_of player_info cid
      | none => none
    let captain_played : Bool := decide (captain_minutes > 0)
    let captain_team_done : Bool :=
      match captain_team with
      | some t => are_all_team_fixtures_done fixtures (some t)
      | none => false
    let active_picks := if chip = some "bboost" then picks.take 15 else picks.take 11
    let base := (active_picks.map (fun p =>
      (live_stat live p.element).total_points *
        live_pick_mult chip live player_info fixtures captain_played captain_team_done p)).sum
    let total :=
      if chip = some "bboost" then base
      else base + calculate_auto_subs picks live player_info fixtures
        (are_all_team_fixtures_done fixtures)
    total - hits

/-! ## Concrete snapshot: a single fixture that is in progress

Team 1 plays team 2; the fixture has `started` but is neither `finished`
nor `finished_provisional` — a live, in-progress game. -/

/-- One in-progress fixture (team 1 vs team 2, kicked off, not finished). -/
def cexFixturesLive : List Fixture := [⟨1, 1, 2, true, false, false, some 0⟩]

/-- Player info for the captaincy scenario: players 1-10 play for team 3
(no fixture in the list, hence "done"), player 11 is a forward of team 1. -/
def c1_player_info : List (Nat × PInfo) :=
  [(1, ⟨1, 3⟩), (2, ⟨2, 3⟩), (3, ⟨2, 3⟩), (4, ⟨2, 3⟩), (5, ⟨2, 3⟩),
   (6, ⟨3, 3⟩), (7, ⟨3, 3⟩), (8, ⟨3, 3⟩), (9, ⟨4, 3⟩), (10, ⟨4, 3⟩), (11, ⟨4, 1⟩)]

/-- Live stats: everyone has played except player 11 (the captain, 0 minutes,
5 points so far); player 10 (the vice-captain) has 30 minutes and 6 points. -/
def c1_live : List (Nat × LiveStat) :=
  [(1, ⟨2, 90⟩), (2, ⟨2, 90⟩), (3, ⟨2, 90⟩), (4, ⟨2, 90⟩), (5, ⟨2, 90⟩),
   (6, ⟨2, 90⟩), (7, ⟨2, 90⟩), (8, ⟨2, 90⟩), (9, ⟨2, 90⟩), (10, ⟨6, 30⟩), (11, ⟨5, 0⟩)]

/-- An 11-pick roster (no bench): player 11 is captain, player 10 vice. -/
def c1_picks : List Pick :=
  [⟨1, false, false⟩, ⟨2, false, false⟩, ⟨3, false, false⟩, ⟨4, false, false⟩,
   ⟨5, false, false⟩, ⟨6, false, false⟩, ⟨7, false, false⟩, ⟨8, false, false⟩,
   ⟨9, false, false⟩, ⟨10, false, true⟩, ⟨11, true, false⟩]

/-- Picks payload for the captaincy scenario: no chip, no transfer hit. -/
def c1_picks_data : PicksData := ⟨c1_picks, none, 0⟩

set_option maxHeartbeats 2000000 in
/-- C1, code behaviour at the failing input: the captain (player 11) has
0 minutes while his team's only fixture is in progress (`started`, not
`finished`).  `are_all_team_fixtures_done` tests `started`, so the code
treats the team as done: the captain is credited at multiplier 0 and the
vice-captain at multiplier 2, giving 30 points in total — where the claim
(captain's team not yet fully done ⇒ captain at multiplier 1, vice at 1)
would give 29. -/
theorem live_points_zeroes_pending_captain_in_running_game :
    calculate_live_points (some c1_picks_data) c1_live c1_player_info cexFixturesLive = 30 ∧
    live_pick_mult none c1_live c1_player_info cexFixturesLive false true ⟨11, true, false⟩ = 0 ∧
    live_pick_mult none c1_live c1_player_info cexFixturesLive false true ⟨10, false, true⟩ = 2 ∧
    (live_stat c1_live 11).minutes = 0 ∧
    (∀ f ∈ cexFixturesLive,
      f.started = true ∧ f.finished = false ∧ f.finished_provisional = false) := by
  decide

/-- Player info for the auto-sub scenario: starters 1-10 play for team 3,
starter 11 is a forward of team 1 (the in-progress game); bench player 12
is a forward of team 3. -/
def c2_player_info : List (Nat × PInfo) :=
  [(1, ⟨1, 3⟩), (2, ⟨2, 3⟩), (3, ⟨2, 3⟩), (4, ⟨2, 3⟩), (5, ⟨2, 3⟩),
   (6, ⟨3, 3⟩), (7, ⟨3, 3⟩), (8, ⟨3, 3⟩), (9, ⟨4, 3⟩), (10, ⟨4, 3⟩),
   (11, ⟨4, 1⟩), (12, ⟨4, 3⟩)]

/-- Live stats: starter 11 has 0 minutes (his game is in progress), bench
player 12 has played 90 minutes for 7 points. -/
def c2_live : List (Nat × LiveStat) :=
  [(1, ⟨2, 90⟩), (2, ⟨2, 90⟩), (3, ⟨2, 90⟩), (4, ⟨2, 90⟩), (5, ⟨2, 90⟩),
   (6, ⟨2, 90⟩), (7, ⟨2, 90⟩), (8, ⟨2, 90⟩), (9, ⟨2, 90⟩), (10, ⟨2, 90⟩),
   (11, ⟨0, 0⟩), (12, ⟨7, 90⟩)]

/-- A 12-pick roster: 11 starters (4-3-3) plus one bench forward. -/
def c2_picks : List Pick :=
  [⟨1, false, false⟩, ⟨2, false, false⟩, ⟨3, false, false⟩, ⟨4, false, false⟩,
   ⟨5, false, false⟩, ⟨6, false, false⟩, ⟨7, false, false⟩, ⟨8, false, false⟩,
   ⟨9, false, false⟩, ⟨10, false, false⟩, ⟨11, false, false⟩, ⟨12, false, false⟩]

set_option maxHeartbeats 2000000 in
/-- C2, code behaviour at the failing input: starter 11 has 0 minutes and
his team's only fixture is in progress (`started = true`, not finished),
yet `calculate_auto_subs` replaces him with bench player 12 and credits the
bench player's 7 points — the swap trace shows the accepted substitution. -/
theorem auto_subs_replace_starter_in_running_game :
    calculate_auto_subs c2_picks c2_live c2_player_info cexFixturesLive
        (are_all_team_fixtures_done cexFixturesLive) = 7 ∧
    (live_stat c2_live 11).minutes = 0 ∧
    (calculate_auto_subs_run c2_picks c2_live c2_player_info
        (are_all_team_fixtures_done cexFixturesLive)).swaps = [⟨11, 12, 4, 3, 3, 1⟩] ∧
    (∀ f ∈ cexFixturesLive,
      f.started = true ∧ f.finished = false ∧ f.finished_provisional = false) := by
  decide

/-! ## The formation invariant of the auto-substitution simulator (C3) -/

/-- Every swap record appended by the inner bench scan satisfies the
formation bounds (it is guarded by `formation_ok`) and matches goalkeepers
only with goalkeepers (it passed the GK/outfield filter). -/
theorem scanBench_swaps_sound (pi : List (Nat × PInfo)) (live : List (Nat × LiveStat))
    (tdf : Option Nat → Bool) (s_id : Nat) :
    ∀ (bench : List Pick) (st : SubState),
      (∀ r ∈ st.swaps, formation_ok r.d r.m r.f r.g = true ∧
        (pos_of pi r.s_id = 1 ↔ pos_of pi r.b_id = 1)) →
      ∀ r ∈ (scanBench pi live tdf s_id st bench).swaps,
        formation_ok r.d r.m r.f r.g = true ∧
          (pos_of pi r.s_id = 1 ↔ pos_of pi r.b_id = 1) := by
  intro bench
  induction bench with
  | nil => intro st h; simpa [scanBench] using h
  | cons b rest ih =>
    intro st h
    rw [scanBench]
    dsimp only
    split_ifs with h1 h2 h3 h4 h5
    · exact ih st h
    · exact ih st h
    · simpa using h
    · exact ih st h
    · intro r hr
      simp only [List.mem_append, List.mem_singleton] at hr
      rcases hr with hr0 | hr1
      · exact h r hr0
      · subst hr1
        refine ⟨h5, ?_⟩
        by_cases hs : pos_of pi s_id = 1 <;> by_cases hb : pos_of pi b.element = 1
        · simp [hs, hb]
        · exact absurd (Or.inl ⟨hs, hb⟩) h2
        · exact absurd (Or.inr ⟨hs, hb⟩) h2
        · simp [hs, hb]
    · exact ih st h

/-- The bench scan preserves validity of the running formation counters:
they change only through a `formation_ok`-guarded swap. -/
theorem scanBench_formation (pi : List (Nat × PInfo)) (live : List (Nat × LiveStat))
    (tdf : Option Nat → Bool) (s_id : Nat) :
    ∀ (bench : List Pick) (st : SubState),
      formation_ok st.d st.m st.f st.g = true →
      formation_ok (scanBench pi live tdf s_id st bench).d
        (scanBench pi live tdf s_id st bench).m
        (scanBench pi live tdf s_id st bench).f
        (scanBench pi live tdf s_id st bench).g = true := by
  intro bench
  induction bench with
  | nil => intro st h; simpa [scanBench] using h
  | cons b rest ih =>
    intro st h
    rw [scanBench]
    dsimp only
    split_ifs with h1 h2 h3 h4 h5
    · exact ih st h
    · exact ih st h
    · simpa using h
    · exact ih st h
    · simpa using h5
    · exact ih st h

/-- Swap-trace soundness lifted through the per-starter fold. -/
theorem foldl_scan_swaps (pi : List (Nat × PInfo)) (live : List (Nat × LiveStat))
    (tdf : Option Nat → Bool) (bench : List Pick) :
    ∀ (l : List Pick) (st : SubState),
      (∀ r ∈ st.swaps, formation_ok r.d r.m r.f r.g = true ∧
        (pos_of pi r.s_id = 1 ↔ pos_of pi r.b_id = 1)) →
      ∀ r ∈ (l.foldl (fun st s => scanBench pi live tdf s.element st bench) st).swaps,
        formation_ok r.d r.m r.f r.g = true ∧
          (pos_of pi r.s_id = 1 ↔ pos_of pi r.b_id = 1) := by
  intro l
  induction l with
  | nil => intro st h; simpa using h
  | cons s rest ih =>
    intro st h
    rw [List.foldl_cons]
    exact ih _ (scanBench_swaps_sound pi live tdf s.element bench st h)

/-- Formation validity lifted through the per-starter fold. -/
theorem foldl_scan_formation (pi : List (Nat × PInfo)) (live : List (Nat × LiveStat))
    (tdf : Option Nat → Bool) (bench : List Pick) :
    ∀ (l : List Pick) (st : SubState),
      formation_ok st.d st.m st.f st.g = true →
      formation_ok (l.foldl (fun st s => scanBench pi live tdf s.element st bench) st).d
        (l.foldl (fun st s => scanBench pi live tdf s.element st bench) st).m
        (l.foldl (fun st s => scanBench pi live tdf s.element st bench) st).f
        (l.foldl (fun st s => scanBench pi live tdf s.element st bench) st).g = true := by
  intro l
  induction l with
  | nil => intro st h; simpa using h
  | cons s rest ih =>
    intro st h
    rw [List.foldl_cons]
    exact ih _ (scanBench_formation pi live tdf s.element bench st h)

/-- C3: every accepted bench-for-starter swap of the auto-substitution
simulation leaves the running formation counters inside the bounds
(goalkeeper = 1, 3-5 defenders, 2-5 midfielders, 1-3 forwards) and pairs a
goalkeeper starter exactly with a goalkeeper bench player; and whenever the
initial starting eleven satisfies the bounds, so do the final counters. -/
theorem auto_subs_formation_invariant (picks : List Pick)
    (live : List (Nat × LiveStat)) (pi : List (Nat × PInfo))
    (tdf : Option Nat → Bool) :
    (∀ r ∈ (calculate_auto_subs_run picks live pi tdf).swaps,
      formation_ok r.d r.m r.f r.g = true ∧
        (pos_of pi r.s_id = 1 ↔ pos_of pi r.b_id = 1)) ∧
    (formation_ok (starter_count pi (picks.take 11) 2)
        (starter_count pi (picks.take 11) 3)
        (starter_count pi (picks.take 11) 4)
        (starter_count pi (picks.take 11) 1) = true →
      formation_ok (calculate_auto_subs_run picks live pi tdf).d
        (calculate_auto_subs_run picks live pi tdf).m
        (calculate_auto_subs_run picks live pi tdf).f
        (calculate_auto_subs_run picks live pi tdf).g = true) := by
  constructor
  · unfold calculate_auto_subs_run
    exact foldl_scan_swaps pi live tdf _ _ _ (by simp)
  · intro h0
    unfold calculate_auto_subs_run
    exact foldl_scan_formation pi live tdf _ _ _ h0

/-- Data for the C3 witness: same roster shape as the auto-sub scenario,
with its own copies so the witness is self-contained. -/
def c3_player_info : List (Nat × PInfo) :=
  [(1, ⟨1, 3⟩), (2, ⟨2, 3⟩), (3, ⟨2, 3⟩), (4, ⟨2, 3⟩), (5, ⟨2, 3⟩),
   (6, ⟨3, 3⟩), (7, ⟨3, 3⟩), (8, ⟨3, 3⟩), (9, ⟨4, 3⟩), (10, ⟨4, 3⟩),
   (11, ⟨4, 1⟩), (12, ⟨4, 3⟩)]

/-- Live stats for the C3 witness. -/
def c3_live : List (Nat × LiveStat) :=
  [(1, ⟨2, 90⟩), (2, ⟨2, 90⟩), (3, ⟨2, 90⟩), (4, ⟨2, 90⟩), (5, ⟨2, 90⟩),
   (6, ⟨2, 90⟩), (7, ⟨2, 90⟩), (8, ⟨2, 90⟩), (9, ⟨2, 90⟩), (10, ⟨2, 90⟩),
   (11, ⟨0, 0⟩), (12, ⟨7, 90⟩)]

/-- Roster for the C3 witness (one non-playing starter, one bench player). -/
def c3_picks : List Pick :=
  [⟨1, false, false⟩, ⟨2, false, false⟩, ⟨3, false, false⟩, ⟨4, false, false⟩,
   ⟨5, false, false⟩, ⟨6, false, false⟩, ⟨7, false, false⟩, ⟨8, false, false⟩,
   ⟨9, false, false⟩, ⟨10, false, false⟩, ⟨11, false, false⟩, ⟨12, false, false⟩]

/-- Witness for C3 at a concrete roster whose starting eleven is a valid
4-3-3 and where one substitution actually happens. -/
theorem auto_subs_formation_invariant_witness :
    formation_ok (calculate_auto_subs_run c3_picks c3_live c3_player_info (fun _ => true)).d
      (calculate_auto_subs_run c3_picks c3_live c3_player_info (fun _ => true)).m
      (calculate_auto_subs_run c3_picks c3_live c3_player_info (fun _ => true)).f
      (calculate_auto_subs_run c3_picks c3_live c3_player_info (fun _ => true)).g = true :=
  (auto_subs_formation_invariant c3_picks c3_live c3_player_info (fun _ => true)).2 (by decide)

/-! ## Bonus point projector (`the100.py:179-249`)

`calculate_projected_bonus` builds one row per (player, fixture) with that
fixture's bps, groups the rows by fixture, runs `assign_bonus_points` on
each group, and finally sums each player's bonus across fixtures.  We model
the per-fixture data as `BpsRow` lists; the pandas `sort_values` /
`unique` pair becomes an insertion sort plus adjacent deduplication. -/

/-- One (player, fixture, bps) row of the bonus dataframe. -/
structure BpsRow where
  player_id : Nat
  fixture_id : Nat
  bps : Int
  deriving DecidableEq, Repr

/-- Descending insertion of one value (ties keep the incoming value first,
which is irrelevant for the group walk: groups are keyed by value). -/
def insertDesc (x : Int) : List Int → List Int
  | [] => [x]
  | y :: ys => if y ≤ x then x :: y :: ys else y :: insertDesc x ys

/-- Descending insertion sort — `sort_values(by bps, ascending=False)`. -/
def sortDesc : List Int → List Int
  | [] => []
  | x :: xs => insertDesc x (sortDesc xs)

/-- Adjacent deduplication; on a descending-sorted list this yields the
distinct values in descending order — pandas `unique` on the sorted column. -/
def dedupAdj : List Int → List Int
  | [] => []
  | [x] => [x]
  | x :: y :: rest => if x = y then dedupAdj (y :: rest) else x :: dedupAdj (y :: rest)

/-- The `unique_bps` column of `assign_bonus_points`: the distinct bps values of the
fixture group, highest first. -/
def unique_bps (rows : List BpsRow) : List Int :=
  dedupAdj (sortDesc (rows.map BpsRow.bps))

/-- The `for bps_score in unique_bps` loop of `assign_bonus_points`
(`the100.py:228-242`): walks the distinct bps values with the position
counter, emitting `(value, bonus)` assignments.  Tier 1 advances the
counter by 2 on any tie (`position += 2 if num > 1 else 1`), tier 2
advances past the group capped at 4 (`position = min(position + num, 4)`),
tier 3 advances by 1; the loop stops once the counter exceeds 3. -/
def bonus_walk (rows : List BpsRow) : List Int → Nat → List (Int × Nat)
  | [], _ => []
  | v :: rest, position =>
    if position > 3 then []
    else
      let num := (rows.filter (fun r => r.bps = v)).length
      if position = 1 then
        (v, 3) :: bonus_walk rows rest (position + (if num > 1 then 2 else 1))
      else if position = 2 then
        (v, 2) :: bonus_walk rows rest (min (position + num) 4)
      else if position = 3 then
        (v, 1) :: bonus_walk rows rest (position + 1)
      else
        bonus_walk rows rest position

/-- Function `assign_bonus_points` for one fixture group: the (bps value → bonus)
assignment produced by the walk, starting at position 1. -/
def assign_bonus (rows : List BpsRow) : List (Int × Nat) :=
  bonus_walk rows (unique_bps rows) 1

/-- The bonus a single row receives inside its fixture group (0 when its
bps value got no assignment). -/
def row_bonus (rows : List BpsRow) (r : BpsRow) : Nat :=
  ((assign_bonus rows).lookup r.bps).getD 0

/-- The rows of one fixture (the `groupby('fixture_id')` group). -/
def rows_of_fixture (allRows : List BpsRow) (fid : Nat) : List BpsRow :=
  allRows.filter (fun r => r.fixture_id = fid)

/-- Function `calculate_projected_bonus` for one player: per-fixture assignment via
`assign_bonus_points`, then summation across the player's fixtures
(`df.groupby('player_id')['bonus'].sum()`). -/
def calculate_projected_bonus (allRows : List BpsRow) (pid : Nat) : Nat :=
  ((allRows.filter (fun r => r.player_id = pid)).map
    (fun r => row_bonus (rows_of_fixture allRows r.fixture_id) r)).sum

/-- The claim's tie rule, stated literally: at *every* tier the position
counter advances past the whole tie group (`position + num`), with 3/2/1
awarded at positions 1/2/3 and nothing below.  This is the comparison
definition for the refutation; the code's walk is `bonus_walk` above. -/
def bonus_walk_claim (rows : List BpsRow) : List Int → Nat → List (Int × Nat)
  | [], _ => []
  | v :: rest, position =>
    if position > 3 then []
    else
      let num := (rows.filter (fun r => r.bps = v)).length
      let b : Nat := if position = 1 then 3 else if position = 2 then 2 else 1
      (v, b) :: bonus_walk_claim rows rest (position + num)

/-- Per-row bonus under the claim's literal tie rule. -/
def row_bonus_claim (rows : List BpsRow) (r : BpsRow) : Nat :=
  ((bonus_walk_claim rows (unique_bps rows) 1).lookup r.bps).getD 0

/-- A fixture group with a three-way tie for first: bps 40, 40, 40, 30. -/
def c4_rows : List BpsRow := [⟨1, 1, 40⟩, ⟨2, 1, 40⟩, ⟨3, 1, 40⟩, ⟨4, 1, 30⟩]

/-- C4 counterexample: with a three-way tie at the top the code's counter
lands on 3 (`+= 2`), so the next bps group still receives 1 bonus point,
whereas the claim's "advance past the tie group" rule would land on 4 and
award it nothing: the two rules disagree at bps `[40,40,40,30]`. -/
theorem bonus_three_way_tie_disagrees_with_claim :
    row_bonus c4_rows ⟨4, 1, 40⟩ = 3 ∧
    row_bonus c4_rows ⟨4, 1, 30⟩ = 1 ∧
    row_bonus_claim c4_rows ⟨4, 1, 30⟩ = 0 := by
  decide

/-! ### Facts about the sort / dedup pipeline of the bonus projector -/

theorem mem_insertDesc (x a : Int) : ∀ l : List Int, a ∈ insertDesc x l ↔ a = x ∨ a ∈ l := by
  intro l
  induction l with
  | nil => simp [insertDesc]
  | cons y ys ih =>
    rw [insertDesc]
    split_ifs with h
    · simp [List.mem_cons]
    · simp only [List.mem_cons, ih]
      tauto

theorem mem_sortDesc (a : Int) : ∀ l : List Int, a ∈ sortDesc l ↔ a ∈ l := by
  intro l
  induction l with
  | nil => simp [sortDesc]
  | cons x xs ih =>
    rw [sortDesc, mem_insertDesc]
    simp [ih]

theorem mem_dedupAdj (a : Int) : ∀ l : List Int, a ∈ dedupAdj l ↔ a ∈ l := by
  intro l
  induction l with
  | nil => simp [dedupAdj]
  | cons x xs ih =>
    cases xs with
    | nil => simp [dedupAdj]
    | cons y ys =>
      rw [dedupAdj]
      split_ifs with h
      · subst h
        rw [ih]
        simp [List.mem_cons]
      · simp only [List.mem_cons, ih]

theorem dedupAdj_cons_eq : ∀ (l : List Int) (y : Int), ∃ t, dedupAdj (y :: l) = y :: t := by
  intro l
  induction l with
  | nil => intro y; exact ⟨[], rfl⟩
  | cons z zs ih =>
    intro y
    rw [dedupAdj]
    split_ifs with h
    · rcases ih z with ⟨t, ht⟩
      exact ⟨t, by rw [ht, h]⟩
    · exact ⟨dedupAdj (z :: zs), rfl⟩

theorem chain_ge_insertDesc (x : Int) :
    ∀ l : List Int, l.Chain' (· ≥ ·) → (insertDesc x l).Chain' (· ≥ ·) := by
  intro l
  induction l with
  | nil => intro _; simp [insertDesc]
  | cons y ys ih =>
    intro h
    rw [insertDesc]
    split_ifs with hxy
    · exact List.chain'_cons.mpr ⟨hxy, h⟩
    · rcases List.chain'_cons'.mp h with ⟨hy, hys⟩
      refine List.chain'_cons'.mpr ⟨?_, ih hys⟩
      intro b hb
      cases ys with
      | nil =>
        simp [insertDesc] at hb
        subst hb
        omega
      | cons z zs =>
        rw [insertDesc] at hb
        split_ifs at hb with hzx
        · simp at hb
          subst hb
          omega
        · simp at hb
          subst hb
          exact hy z (by simp)

theorem chain_ge_sortDesc : ∀ l : List Int, (sortDesc l).Chain' (· ≥ ·) := by
  intro l
  induction l with
  | nil => simp [sortDesc]
  | cons x xs ih => exact chain_ge_insertDesc x _ ih

theorem chain_gt_dedupAdj :
    ∀ l : List Int, l.Chain' (· ≥ ·) → (dedupAdj l).Chain' (· > ·) := by
  intro l
  induction l with
  | nil => intro _; simp [dedupAdj]
  | cons x xs ih =>
    cases xs with
    | nil => intro _; simp [dedupAdj]
    | cons y ys =>
      intro h
      rcases List.chain'_cons.mp h with ⟨hxy, htail⟩
      rw [dedupAdj]
      split_ifs with heq
      · exact ih htail
      · rcases dedupAdj_cons_eq ys y with ⟨t, ht⟩
        rw [ht]
        refine List.chain'_cons.mpr ⟨by omega, ?_⟩
        have := ih htail
        rwa [ht] at this

theorem unique_bps_chain (rows : List BpsRow) : (unique_bps rows).Chain' (· > ·) :=
  chain_gt_dedupAdj _ (chain_ge_sortDesc _)

theorem mem_unique_bps (v : Int) (rows : List BpsRow) :
    v ∈ unique_bps rows ↔ v ∈ rows.map BpsRow.bps := by
  unfold unique_bps
  rw [mem_dedupAdj, mem_sortDesc]

theorem chain_gt_mem : ∀ (l : List Int) (x : Int),
    (x :: l).Chain' (· > ·) → ∀ a ∈ l, a < x := by
  intro l
  induction l with
  | nil => intro x _ a ha; simp at ha
  | cons y ys ih =>
    intro x h a ha
    rcases List.chain'_cons.mp h with ⟨hxy, htail⟩
    rcases List.mem_cons.mp ha with rfl | ha'
    · exact hxy
    · exact lt_trans (ih y htail a ha') hxy

theorem unique_bps_count_pos (v : Int) (rows : List BpsRow) (h : v ∈ unique_bps rows) :
    1 ≤ (rows.filter (fun r => r.bps = v)).length := by
  rcases List.mem_map.mp ((mem_unique_bps v rows).mp h) with ⟨r, hr, hbv⟩
  have hmem : r ∈ rows.filter (fun r => r.bps = v) :=
    List.mem_filter.mpr ⟨hr, by simp [hbv]⟩
  have := List.ne_nil_of_mem hmem
  cases hfilter : rows.filter (fun r => r.bps = v) with
  | nil => exact absurd hfilter this
  | cons a t => simp

/-- Once the position counter exceeds 3 the walk emits nothing. -/
theorem bonus_walk_stop (rows : List BpsRow) :
    ∀ (l : List Int) (p : Nat), 3 < p → bonus_walk rows l p = [] := by
  intro l p hp
  cases l with
  | nil => rw [bonus_walk]
  | cons v rest => rw [bonus_walk, if_pos hp]

/-- C4 (amended): per fixture, all players tied for the highest bps get 3
bonus; the next distinct bps group gets 2 when the top group is a single
player and 1 when the top was tied (any tie size — the counter advances by
2, not past the group); the third distinct group gets 1 exactly when both
higher groups were singletons; nothing is awarded below that; and a player
appearing in two fixtures receives the sum of its two per-fixture bonuses. -/
theorem bonus_assignment_characterization (rows : List BpsRow) (v1 v2 v3 : Int)
    (vrest : List Int) (allRows : List BpsRow) (pid : Nat) (ra rb : BpsRow) :
    (unique_bps rows = v1 :: v2 :: v3 :: vrest →
      (assign_bonus rows).lookup v1 = some 3 ∧
      (assign_bonus rows).lookup v2 =
        some (if 1 < (rows.filter (fun r => r.bps = v1)).length then 1 else 2) ∧
      (assign_bonus rows).lookup v3 =
        (if 1 < (rows.filter (fun r => r.bps = v1)).length ∨
            1 < (rows.filter (fun r => r.bps = v2)).length then none else some 1) ∧
      (∀ v ∈ vrest, (assign_bonus rows).lookup v = none) ∧
      (∀ r ∈ rows, r.bps ≤ v1)) ∧
    (allRows.filter (fun r => r.player_id = pid) = [ra, rb] →
      calculate_projected_bonus allRows pid =
        row_bonus (rows_of_fixture allRows ra.fixture_id) ra +
          row_bonus (rows_of_fixture allRows rb.fixture_id) rb) := by
  constructor
  · intro h
    have hchain := unique_bps_chain rows
    rw [h] at hchain
    obtain ⟨h12, hc2⟩ := List.chain'_cons.mp hchain
    obtain ⟨h23, hc3⟩ := List.chain'_cons.mp hc2
    have hrest3 : ∀ v ∈ vrest, v < v3 := chain_gt_mem vrest v3 hc3
    have hn2pos : 1 ≤ (rows.filter (fun r => r.bps = v2)).length :=
      unique_bps_count_pos v2 rows (by rw [h]; simp)
    have hmax : ∀ r ∈ rows, r.bps ≤ v1 := by
      intro r hr
      have hm : r.bps ∈ unique_bps rows :=
        (mem_unique_bps _ rows).mpr (List.mem_map.mpr ⟨r, hr, rfl⟩)
      rw [h] at hm
      rcases List.mem_cons.mp hm with he | hm'
      · exact le_of_eq he
      · exact le_of_lt (chain_gt_mem _ v1 hchain _ hm')
    have ne21 : (v2 == v1) = false := by simp; omega
    have ne31 : (v3 == v1) = false := by simp; omega
    have ne32 : (v3 == v2) = false := by simp; omega
    by_cases hn1 : 1 < (rows.filter (fun r => r.bps = v1)).length
    · have hwalk : assign_bonus rows = [(v1, 3), (v2, 1)] := by
        unfold assign_bonus
        rw [h]
        simp [bonus_walk, hn1]
      rw [hwalk]
      refine ⟨?_, ?_, ?_, ?_, hmax⟩
      · simp [List.lookup]
      · simp [List.lookup, ne21, hn1]
      · simp [List.lookup, ne31, ne32, hn1]
      · intro v hv
        have hv3 := hrest3 v hv
        have nev1 : (v == v1) = false := by simp; omega
        have nev2 : (v == v2) = false := by simp; omega
        simp [List.lookup, nev1, nev2]
    · by_cases hn2 : 1 < (rows.filter (fun r => r.bps = v2)).length
      · have hwalk : assign_bonus rows = [(v1, 3), (v2, 2)] := by
          unfold assign_bonus
          rw [h]
          have hmin : min (2 + (rows.filter (fun r => r.bps = v2)).length) 4 = 4 := by omega
          simp [bonus_walk, hn1, hn2, hmin, bonus_walk_stop]
        rw [hwalk]
        refine ⟨?_, ?_, ?_, ?_, hmax⟩
        · simp [List.lookup]
        · simp [List.lookup, ne21, hn1]
        · simp [List.lookup, ne31, ne32, hn2]
        · intro v hv
          have hv3 := hrest3 v hv
          have nev1 : (v == v1) = false := by simp; omega
          have nev2 : (v == v2) = false := by simp; omega
          simp [List.lookup, nev1, nev2]
      · have hn2eq : (rows.filter (fun r => r.bps = v2)).length = 1 := by omega
        have hwalk : assign_bonus rows = [(v1, 3), (v2, 2), (v3, 1)] := by
          unfold assign_bonus
          rw [h]
          have hmin : min (2 + (rows.filter (fun r => r.bps = v2)).length) 4 = 3 := by omega
          simp [bonus_walk, hn1, hmin, bonus_walk_stop]
        rw [hwalk]
        refine ⟨?_, ?_, ?_, ?_, hmax⟩
        · simp [List.lookup]
        · simp [List.lookup, ne21, hn1]
        · simp [List.lookup, ne31, ne32, hn1, hn2]
        · intro v hv
          have hv3 := hrest3 v hv
          have nev1 : (v == v1) = false := by simp; omega
          have nev2 : (v == v2) = false := by simp; omega
          have nev3 : (v == v3) = false := by simp; omega
          simp [List.lookup, nev1, nev2, nev3]
  · intro hf
    unfold calculate_projected_bonus
    rw [hf]
    simp

/-- Rows used in the C4 witness: one fixture with bps 50 > 40 > 30 > 20 and
no ties, and a two-fixture sheet for player 9 (a double gameweek). -/
def c4w_rows : List BpsRow := [⟨1, 1, 50⟩, ⟨2, 1, 40⟩, ⟨3, 1, 30⟩, ⟨4, 1, 20⟩]

/-- A double-gameweek sheet: player 9 appears in fixtures 1 and 2. -/
def c4w_all : List BpsRow :=
  [⟨9, 1, 50⟩, ⟨5, 1, 20⟩, ⟨9, 2, 10⟩, ⟨6, 2, 44⟩, ⟨7, 2, 44⟩]

/-- Witness for C4 at a tie-free fixture (bonuses 3/2/1/0) and a
double-gameweek player whose total is the sum of its per-fixture bonuses. -/
theorem bonus_assignment_characterization_witness :
    ((assign_bonus c4w_rows).lookup 50 = some 3 ∧
      (assign_bonus c4w_rows).lookup 40 = some 2 ∧
      (assign_bonus c4w_rows).lookup 30 = some 1 ∧
      (assign_bonus c4w_rows).lookup 20 = none) ∧
    calculate_projected_bonus c4w_all 9 =
      row_bonus (rows_of_fixture c4w_all 1) ⟨9, 1, 50⟩ +
        row_bonus (rows_of_fixture c4w_all 2) ⟨9, 2, 10⟩ := by
  have h := bonus_assignment_characterization c4w_rows 50 40 30 [20] c4w_all 9
    ⟨9, 1, 50⟩ ⟨9, 2, 10⟩
  obtain ⟨h1, h2⟩ := h
  have hu : unique_bps c4w_rows = 50 :: 40 :: 30 :: [20] := by decide
  obtain ⟨e1, e2, e3, e4, _⟩ := h1 hu
  refine ⟨⟨e1, ?_, ?_, e4 20 (by decide)⟩, h2 (by decide)⟩
  · simpa using e2
  · simpa using e3

/-! ## Qualified-set computation on entry to the elimination phase
(`the100.py:850-907`)

When no persisted registry exists, `get_the100_standings` rebuilds the
qualified list from the qualification standings: a first pass checks
whether the defending champion (`WINNER_ENTRY_ID`) sits inside the top 99
by rank; the second pass then either takes every row with rank ≤ 100, or
takes the champion plus the first 99 non-champion rows, stopping as soon
as 100 entries are collected. -/

/-- Last season's winner — auto-qualifies regardless of position. -/
def WINNER_ENTRY_ID : Nat := 49250

/-- One row of the qualification standings feed. -/
structure QualStandRow where
  entry : Nat
  rank : Nat
  player_name : String
  entry_name : String
  total : Int
  deriving DecidableEq, Repr

/-- One entry of the qualified-managers list built by the second pass. -/
structure QualifiedMgr where
  entry_id : Nat
  manager_name : String
  team_name : String
  qualification_rank : Nat
  qualification_total : Int
  is_winner : Bool
  deriving DecidableEq, Repr

/-- The dict appended for one standings row. -/
def toQualified (r : QualStandRow) : QualifiedMgr :=
  ⟨r.entry, r.player_name, r.entry_name, r.rank, r.total,
    decide (r.entry = WINNER_ENTRY_ID)⟩

/-- First pass: is the champion ranked inside the top 99? -/
def winner_in_top_99 (rows : List QualStandRow) : Bool :=
  rows.any (fun r => decide (r.entry = WINNER_ENTRY_ID) && decide (r.rank ≤ 99))

/-- Second pass (`the100.py:866-907`): the row loop with its running
`count_non_winner` and the `len(qualified) >= 100` early exit. -/
def build_qualified_go (wtop : Bool) :
    List QualStandRow → Nat → List QualifiedMgr → List QualifiedMgr
  | [], _, acc => acc
  | r :: rest, cnw, acc =>
    let acc2 :=
      if wtop then (if r.rank ≤ 100 then acc ++ [toQualified r] else acc)
      else if r.entry = WINNER_ENTRY_ID then acc ++ [toQualified r]
      else if cnw < 99 then acc ++ [toQualified r]
      else acc
    let cnw2 :=
      if wtop = false ∧ r.entry ≠ WINNER_ENTRY_ID ∧ cnw < 99 then cnw + 1 else cnw
    if acc2.length ≥ 100 then acc2
    else build_qualified_go wtop rest cnw2 acc2

/-- The qualified list computed from the qualification standings. -/
def build_qualified (rows : List QualStandRow) : List QualifiedMgr :=
  build_qualified_go (winner_in_top_99 rows) rows 0 []

/-- Unfolding: the loop on an exhausted list returns the accumulator. -/
theorem build_go_nil (w : Bool) (cnw : Nat) (acc : List QualifiedMgr) :
    build_qualified_go w [] cnw acc = acc := by
  rw [build_qualified_go]

/-- Step, `wtop = false`, non-champion row, quota not yet full. -/
theorem go_false_take (r : QualStandRow) (rest : List QualStandRow) (cnw : Nat)
    (acc : List QualifiedMgr) (h1 : r.entry ≠ WINNER_ENTRY_ID) (h2 : cnw < 99)
    (h3 : acc.length + 1 < 100) :
    build_qualified_go false (r :: rest) cnw acc =
      build_qualified_go false rest (cnw + 1) (acc ++ [toQualified r]) := by
  rw [build_qualified_go]
  rw [if_neg (show ¬(false = true) by simp)]
  rw [if_neg h1, if_pos h2]
  rw [if_pos (show false = false ∧ r.entry ≠ WINNER_ENTRY_ID ∧ cnw < 99 from ⟨rfl, h1, h2⟩)]
  rw [if_neg (show ¬((acc ++ [toQualified r]).length ≥ 100) by simp; omega)]

/-- Step, `wtop = false`, non-champion row, quota of 99 already reached. -/
theorem go_false_skip (r : QualStandRow) (rest : List QualStandRow) (cnw : Nat)
    (acc : List QualifiedMgr) (h1 : r.entry ≠ WINNER_ENTRY_ID) (h2 : ¬cnw < 99)
    (h3 : acc.length < 100) :
    build_qualified_go false (r :: rest) cnw acc =
      build_qualified_go false rest cnw acc := by
  rw [build_qualified_go]
  rw [if_neg (show ¬(false = true) by simp)]
  rw [if_neg h1, if_neg h2]
  rw [if_neg (show ¬(false = false ∧ r.entry ≠ WINNER_ENTRY_ID ∧ cnw < 99) from
    fun hx => h2 hx.2.2)]
  rw [if_neg (show ¬(acc.length ≥ 100) by omega)]

/-- Step, `wtop = false`, the champion's row filling the list to 100. -/
theorem go_false_winner_stop (r : QualStandRow) (rest : List QualStandRow) (cnw : Nat)
    (acc : List QualifiedMgr) (h1 : r.entry = WINNER_ENTRY_ID)
    (h3 : acc.length + 1 ≥ 100) :
    build_qualified_go false (r :: rest) cnw acc = acc ++ [toQualified r] := by
  rw [build_qualified_go]
  rw [if_neg (show ¬(false = true) by simp)]
  rw [if_pos h1]
  rw [if_neg (show ¬(false = false ∧ r.entry ≠ WINNER_ENTRY_ID ∧ cnw < 99) from
    fun hx => hx.2.1 h1)]
  rw [if_pos (show (acc ++ [toQualified r]).length ≥ 100 by simp; omega)]

/-- Step, `wtop = true`, a row with rank ≤ 100, list not yet full. -/
theorem go_true_take (r : QualStandRow) (rest : List QualStandRow) (cnw : Nat)
    (acc : List QualifiedMgr) (h1 : r.rank ≤ 100) (h3 : acc.length + 1 < 100) :
    build_qualified_go true (r :: rest) cnw acc =
      build_qualified_go true rest cnw (acc ++ [toQualified r]) := by
  rw [build_qualified_go]
  rw [if_pos (show (true : Bool) = true from rfl)]
  rw [if_pos h1]
  rw [if_neg (show ¬(true = false ∧ r.entry ≠ WINNER_ENTRY_ID ∧ cnw < 99) from
    fun hx => by simpa using hx.1)]
  rw [if_neg (show ¬((acc ++ [toQualified r]).length ≥ 100) by simp; omega)]

/-- Step, `wtop = true`, the row that fills the list to 100 entries. -/
theorem go_true_stop (r : QualStandRow) (rest : List QualStandRow) (cnw : Nat)
    (acc : List QualifiedMgr) (h1 : r.rank ≤ 100) (h3 : acc.length + 1 ≥ 100) :
    build_qualified_go true (r :: rest) cnw acc = acc ++ [toQualified r] := by
  rw [build_qualified_go]
  rw [if_pos (show (true : Bool) = true from rfl)]
  rw [if_pos h1]
  rw [if_neg (show ¬(true = false ∧ r.entry ≠ WINNER_ENTRY_ID ∧ cnw < 99) from
    fun hx => by simpa using hx.1)]
  rw [if_pos (show (acc ++ [toQualified r]).length ≥ 100 by simp; omega)]

/-- While scanning non-champion rows with `wtop = false`, the loop appends
the first `99 - cnw` of them and then skips the rest, keeping
`acc.length = cnw ≤ 99` (the early exit never fires on this stretch). -/
theorem build_go_nonwinner : ∀ (pre rest : List QualStandRow)
    (cnw : Nat) (acc : List QualifiedMgr),
    (∀ r ∈ pre, r.entry ≠ WINNER_ENTRY_ID) →
    acc.length = cnw → cnw ≤ 99 →
    build_qualified_go false (pre ++ rest) cnw acc =
      build_qualified_go false rest (min 99 (cnw + pre.length))
        (acc ++ ((pre.take (99 - cnw)).map toQualified)) := by
  intro pre
  induction pre with
  | nil =>
    intro rest cnw acc _ hlen hle
    simp [Nat.min_eq_right hle]
  | cons r pre ih =>
    intro rest cnw acc hnw hlen hle
    have h1 : r.entry ≠ WINNER_ENTRY_ID := hnw r (by simp)
    rw [List.cons_append]
    by_cases hc : cnw < 99
    · rw [go_false_take r (pre ++ rest) cnw acc h1 hc (by omega)]
      rw [ih rest (cnw + 1) (acc ++ [toQualified r])
        (fun x hx => hnw x (by simp [hx])) (by simp [hlen]) (by omega)]
      have harg : cnw + 1 + pre.length = cnw + (r :: pre).length := by
        simp
        omega
      rw [harg]
      have htake : (r :: pre).take (99 - cnw) = r :: pre.take (99 - (cnw + 1)) := by
        have he : 99 - cnw = (99 - (cnw + 1)) + 1 := by omega
        rw [he, List.take_succ_cons]
      rw [htake]
      simp
    · have hc99 : cnw = 99 := by omega
      rw [go_false_skip r (pre ++ rest) cnw acc h1 hc (by omega)]
      rw [ih rest cnw acc (fun x hx => hnw x (by simp [hx])) hlen hle]
      have h1' : min 99 (cnw + pre.length) = min 99 (cnw + (r :: pre).length) := by
        subst hc99
        simp [Nat.min_eq_left]
      have h2' : 99 - cnw = 0 := by omega
      rw [h1', h2']
      simp

/-- With `wtop = true` the loop appends every row with rank ≤ 100 and exits
at 100 entries: starting below 100 with enough rows of rank ≤ 100 ahead,
the result is the accumulator plus the next `100 - acc.length` rows. -/
theorem build_go_top100 : ∀ (rows : List QualStandRow)
    (cnw : Nat) (acc : List QualifiedMgr),
    acc.length < 100 →
    (∀ r ∈ rows.take (100 - acc.length), r.rank ≤ 100) →
    100 - acc.length ≤ rows.length →
    build_qualified_go true rows cnw acc =
      acc ++ ((rows.take (100 - acc.length)).map toQualified) := by
  intro rows
  induction rows with
  | nil =>
    intro cnw acc hlt _ hlen
    simp at hlen
    omega
  | cons r rest ih =>
    intro cnw acc hlt hrank hlen
    have hsucc : 100 - acc.length = (100 - (acc.length + 1)) + 1 := by omega
    have hr : r.rank ≤ 100 := by
      apply hrank
      rw [hsucc, List.take_succ_cons]
      simp
    by_cases hstop : acc.length + 1 ≥ 100
    · rw [go_true_stop r rest cnw acc hr hstop]
      have : 100 - acc.length = 1 := by omega
      rw [this]
      simp
    · rw [go_true_take r rest cnw acc hr (by omega)]
      rw [ih cnw (acc ++ [toQualified r]) (by simp; omega)
        (by intro x hx
            apply hrank
            rw [hsucc, List.take_succ_cons]
            simp only [List.length_append, List.length_singleton] at hx
            simp only [List.mem_cons]
            right
            exact hx)
        (by simp at hlen ⊢; omega)]
      rw [hsucc, List.take_succ_cons]
      simp

/-- C5: entering the elimination phase with no persisted registry, (i) if
the champion sits outside the top 99 of the (rank-ordered) qualification
standings, the computed qualified list is exactly the first 99 rows plus
the champion row — 100 entries; (ii) if some champion row is inside the
top 99, the list is exactly the first 100 rows (the top 100 by rank). -/
theorem the100_qualified_set (rows pre post : List QualStandRow) (w : QualStandRow) :
    (rows = pre ++ w :: post →
      (∀ r ∈ pre, r.entry ≠ WINNER_ENTRY_ID) →
      w.entry = WINNER_ENTRY_ID →
      99 ≤ pre.length →
      (∀ r ∈ rows, r.entry = WINNER_ENTRY_ID → 99 < r.rank) →
      build_qualified rows = ((pre.take 99).map toQualified) ++ [toQualified w] ∧
        (build_qualified rows).length = 100) ∧
    ((∃ r ∈ rows, r.entry = WINNER_ENTRY_ID ∧ r.rank ≤ 99) →
      (∀ r ∈ rows.take 100, r.rank ≤ 100) →
      100 ≤ rows.length →
      build_qualified rows = (rows.take 100).map toQualified) := by
  constructor
  · intro hsplit hpre hwin hlen hout
    have hwtop : winner_in_top_99 rows = false := by
      unfold winner_in_top_99
      rw [List.any_eq_false]
      intro r hr
      simp only [Bool.and_eq_true, decide_eq_true_eq, not_and]
      intro he
      have := hout r hr he
      omega
    unfold build_qualified
    rw [hwtop, hsplit]
    rw [build_go_nonwinner pre (w :: post) 0 [] hpre rfl (by omega)]
    have hacc : (([] : List QualifiedMgr) ++ (pre.take (99 - 0)).map toQualified).length = 99 := by
      simp
      omega
    rw [go_false_winner_stop w post _ _ hwin (by omega)]
    constructor
    · simp
    · simp at hacc ⊢
      omega
  · intro hin hrank hlen
    have hwtop : winner_in_top_99 rows = true := by
      unfold winner_in_top_99
      rw [List.any_eq_true]
      rcases hin with ⟨r, hr, he, hrk⟩
      exact ⟨r, hr, by simp [he, hrk]⟩
    unfold build_qualified
    rw [hwtop]
    rw [build_go_top100 rows 0 [] (by simp) (by simpa using hrank) (by simpa using hlen)]
    simp
/-- Standings for the C5 witness, part (i): 99 non-champion rows with ranks
1-99, then the defending champion ranked 150. -/
def c5_preA : List QualStandRow := (List.range 99).map (fun i => ⟨i + 1, i + 1, "", "", 0⟩)

/-- The champion's standings row for the C5 witness, ranked 150. -/
def c5_wA : QualStandRow := ⟨WINNER_ENTRY_ID, 150, "", "", 0⟩

/-- Full standings for part (i) of the C5 witness. -/
def c5_rowsA : List QualStandRow := c5_preA ++ [c5_wA]

/-- Standings for part (ii): 120 rank-ordered rows with the champion at
rank 50 (inside the top 99). -/
def c5_rowsB : List QualStandRow :=
  (List.range 120).map
    (fun i => ⟨if i = 49 then WINNER_ENTRY_ID else i + 1, i + 1, "", "", 0⟩)

set_option maxHeartbeats 4000000 in
/-- Witness for C5: with the champion ranked 150 among 100 candidates the
qualified list is the 99 leaders plus the champion (100 entries); with the
champion at rank 50 among 120 it is exactly the top 100 rows. -/
theorem the100_qualified_set_witness :
    (build_qualified c5_rowsA = ((c5_preA.take 99).map toQualified) ++ [toQualified c5_wA] ∧
      (build_qualified c5_rowsA).length = 100) ∧
    build_qualified c5_rowsB = (c5_rowsB.take 100).map toQualified := by
  constructor
  · exact (the100_qualified_set c5_rowsA c5_preA [] c5_wA).1 rfl (by decide) (by decide)
      (by decide) (by decide)
  · exact (the100_qualified_set c5_rowsB [] [] ⟨0, 0, "", "", 0⟩).2 (by decide) (by decide)
      (by decide)

/-! ## Elimination finalization and the registry (C6)

`get_the100_standings` (`the100.py:933-960`) auto-processes a gameweek's
eliminations only when no `The100EliminationResult` row exists for that
gameweek; `save_the100_elimination` (`models.py:440-478`) then inserts one
elimination row per manager (skipping (gameweek, entry) pairs that already
exist) and updates the manager's registry row: it sets `eliminated_gw` and
`final_rank`, and never inserts or deletes registry rows. -/

/-- A `The100EliminationResult` row. -/
structure ElimRow where
  gameweek : Nat
  entry_id : Nat
  manager_name : String
  team_name : String
  gw_points : Int
  gw_rank : Nat
  deriving DecidableEq, Repr

/-- A `The100QualifiedManager` registry row. -/
structure QualRegRow where
  entry_id : Nat
  manager_name : String
  team_name : String
  qualification_rank : Nat
  qualification_total : Int
  is_winner : Bool
  eliminated_gw : Option Nat
  final_rank : Option Nat
  deriving DecidableEq, Repr

/-- One entry of the `eliminated_managers` list passed to
`save_the100_elimination`. -/
structure ElimMgr where
  entry_id : Nat
  manager_name : String
  team_name : String
  gw_points : Int
  gw_rank : Nat
  deriving DecidableEq, Repr

/-- The two persisted tables touched by elimination processing. -/
structure The100DB where
  elims : List ElimRow
  registry : List QualRegRow
  deriving DecidableEq, Repr

/-- Python `query.filter_by(entry_id).first()` followed by a field update:
apply `f` to the first row with the given entry id (entry ids are unique
in the registry, so at most one row matches). -/
def update_first (f : QualRegRow → QualRegRow) (eid : Nat) :
    List QualRegRow → List QualRegRow
  | [] => []
  | q :: rest =>
    if q.entry_id = eid then f q :: rest else q :: update_first f eid rest

/-- Function `save_the100_elimination` (`models.py:440-478`): per eliminated
manager, insert the elimination row unless one already exists for
(gameweek, entry), and set `eliminated_gw` / `final_rank` on the
manager's registry row. -/
def save_the100_elimination (gw : Nat) (mgrs : List ElimMgr) (db : The100DB) : The100DB :=
  mgrs.foldl (fun st m =>
    let elims2 :=
      if st.elims.any (fun e => decide (e.gameweek = gw) && decide (e.entry_id = m.entry_id))
      then st.elims
      else st.elims ++ [⟨gw, m.entry_id, m.manager_name, m.team_name, m.gw_points, m.gw_rank⟩]
    let registry2 := update_first
      (fun q => { q with eliminated_gw := some gw, final_rank := some m.gw_rank })
      m.entry_id st.registry
    ⟨elims2, registry2⟩) db

/-- The auto-processing guard of `get_the100_standings`
(`the100.py:936-957`): if any elimination row already exists for the
gameweek, nothing is written; otherwise the eliminated managers are saved. -/
def process_gw_eliminations (gw : Nat) (mgrs : List ElimMgr) (db : The100DB) : The100DB :=
  if db.elims.any (fun e => decide (e.gameweek = gw)) then db
  else save_the100_elimination gw mgrs db

/-- All registry fields except the two elimination-tracking ones agree. -/
def reg_frame_eq (q q2 : QualRegRow) : Prop :=
  q2.entry_id = q.entry_id ∧ q2.manager_name = q.manager_name ∧
    q2.team_name = q.team_name ∧ q2.qualification_rank = q.qualification_rank ∧
    q2.qualification_total = q.qualification_total ∧ q2.is_winner = q.is_winner

instance (q q2 : QualRegRow) : Decidable (reg_frame_eq q q2) := by
  unfold reg_frame_eq
  infer_instance

theorem reg_frame_eq_refl (q : QualRegRow) : reg_frame_eq q q :=
  ⟨rfl, rfl, rfl, rfl, rfl, rfl⟩

theorem reg_frame_eq_trans {a b c : QualRegRow} :
    reg_frame_eq a b → reg_frame_eq b c → reg_frame_eq a c := by
  intro h1 h2
  obtain ⟨e1, e2, e3, e4, e5, e6⟩ := h1
  obtain ⟨f1, f2, f3, f4, f5, f6⟩ := h2
  exact ⟨f1.trans e1, f2.trans e2, f3.trans e3, f4.trans e4, f5.trans e5, f6.trans e6⟩

theorem forall₂_frame_trans : ∀ {A B C : List QualRegRow},
    List.Forall₂ reg_frame_eq A B → List.Forall₂ reg_frame_eq B C →
    List.Forall₂ reg_frame_eq A C := by
  intro A
  induction A with
  | nil =>
    intro B C h1 h2
    cases h1
    cases h2
    exact List.Forall₂.nil
  | cons a A ih =>
    intro B C h1 h2
    cases h1 with
    | cons hab h1' =>
      cases h2 with
      | cons hbc h2' => exact List.Forall₂.cons (reg_frame_eq_trans hab hbc) (ih h1' h2')

/-- Lemma: `update_first` relates the old and new registry rows by the frame
relation whenever the update function preserves the frame fields. -/
theorem update_first_forall₂ (f : QualRegRow → QualRegRow) (eid : Nat)
    (hf : ∀ q, reg_frame_eq q (f q)) :
    ∀ l : List QualRegRow, List.Forall₂ reg_frame_eq l (update_first f eid l) := by
  intro l
  induction l with
  | nil => exact List.Forall₂.nil
  | cons q rest ih =>
    rw [update_first]
    split_ifs with hq
    · exact List.Forall₂.cons (hf q)
        (List.forall₂_same.mpr (fun x _ => reg_frame_eq_refl x))
    · exact List.Forall₂.cons (reg_frame_eq_refl q) ih

/-- Through `save_the100_elimination` the registry keeps its rows (frame
fields untouched, only the elimination-tracking fields may change) and the
elimination table is only ever extended. -/
theorem save_elim_inv (gw : Nat) : ∀ (mgrs : List ElimMgr) (st : The100DB),
    List.Forall₂ reg_frame_eq st.registry (save_the100_elimination gw mgrs st).registry ∧
    ∃ s, (save_the100_elimination gw mgrs st).elims = st.elims ++ s := by
  intro mgrs
  induction mgrs with
  | nil =>
    intro st
    refine ⟨List.forall₂_same.mpr (fun x _ => reg_frame_eq_refl x), [], ?_⟩
    simp [save_the100_elimination]
  | cons m rest ih =>
    intro st
    have hstep : save_the100_elimination gw (m :: rest) st =
        save_the100_elimination gw rest
          ⟨if st.elims.any (fun e => decide (e.gameweek = gw) && decide (e.entry_id = m.entry_id))
            then st.elims
            else st.elims ++ [⟨gw, m.entry_id, m.manager_name, m.team_name, m.gw_points, m.gw_rank⟩],
           update_first
             (fun q => { q with eliminated_gw := some gw, final_rank := some m.gw_rank })
             m.entry_id st.registry⟩ := by
      rw [save_the100_elimination, List.foldl_cons, save_the100_elimination]
    rw [hstep]
    obtain ⟨ha, s, hs⟩ := ih _
    constructor
    · refine forall₂_frame_trans ?_ ha
      exact update_first_forall₂
        (fun q => { q with eliminated_gw := some gw, final_rank := some m.gw_rank })
        m.entry_id (fun q => ⟨rfl, rfl, rfl, rfl, rfl, rfl⟩) st.registry
    · rw [hs]
      by_cases hany :
          st.elims.any (fun e => decide (e.gameweek = gw) && decide (e.entry_id = m.entry_id)) = true
      · exact ⟨s, by rw [if_pos hany]⟩
      · refine ⟨⟨gw, m.entry_id, m.manager_name, m.team_name, m.gw_points, m.gw_rank⟩ :: s, ?_⟩
        rw [if_neg hany]
        simp

/-- C6 (amended): if any elimination row already exists for the gameweek,
re-processing is a strict no-op (no elimination rows written, registry
untouched); and in every case finalization never inserts or deletes a
registry row — every registry row keeps its identity and all fields except
the elimination-tracking pair (`eliminated_gw`, `final_rank`) — and only
ever appends to the elimination table. -/
theorem elimination_finalize_frame (gw : Nat) (mgrs : List ElimMgr) (db : The100DB) :
    ((∃ e ∈ db.elims, e.gameweek = gw) → process_gw_eliminations gw mgrs db = db) ∧
    (process_gw_eliminations gw mgrs db).registry.length = db.registry.length ∧
    List.Forall₂ reg_frame_eq db.registry (process_gw_eliminations gw mgrs db).registry ∧
    ∃ s, (process_gw_eliminations gw mgrs db).elims = db.elims ++ s := by
  have hmain :
      List.Forall₂ reg_frame_eq db.registry (process_gw_eliminations gw mgrs db).registry ∧
      ∃ s, (process_gw_eliminations gw mgrs db).elims = db.elims ++ s := by
    unfold process_gw_eliminations
    split_ifs with hany
    · exact ⟨List.forall₂_same.mpr (fun x _ => reg_frame_eq_refl x), [], by simp⟩
    · exact save_elim_inv gw mgrs db
  refine ⟨?_, ?_, hmain.1, hmain.2⟩
  · rintro ⟨e, he, hgw⟩
    unfold process_gw_eliminations
    rw [if_pos (List.any_eq_true.mpr ⟨e, he, by simp [hgw]⟩)]
  · exact (hmain.1.length_eq).symm

/-- Registry/elimination state for the C6 counterexample: one active
registry row (no elimination data yet), empty elimination table. -/
def c6_db0 : The100DB := ⟨[], [⟨7, "", "", 5, 0, false, none, none⟩]⟩

/-- One eliminated manager (entry 7, rank 97) for the C6 counterexample. -/
def c6_mgrs : List ElimMgr := [⟨7, "", "", 20, 97⟩]

/-- C6 counterexample: finalization does not set *only* the
elimination-period field — it also sets `final_rank` on the registry row
(from `none` to `some 97` here), refuting the claim's "only ever sets the
elimination-period field". -/
theorem elimination_sets_final_rank_too :
    (process_gw_eliminations 25 c6_mgrs c6_db0).registry.map QualRegRow.final_rank = [some 97] ∧
    c6_db0.registry.map QualRegRow.final_rank = [none] ∧
    (process_gw_eliminations 25 c6_mgrs c6_db0).elims = [⟨25, 7, "", "", 20, 97⟩] := by
  decide

/-- State with an already-recorded elimination row for gameweek 20, for the
C6 witness. -/
def c6_dbw : The100DB :=
  ⟨[⟨20, 7, "", "", 10, 95⟩], [⟨7, "", "", 5, 0, false, some 20, some 95⟩]⟩

/-- Witness for C6: re-processing gameweek 20 on a state that already has
an elimination row for it changes nothing. -/
theorem elimination_finalize_frame_witness :
    process_gw_eliminations 20 c6_mgrs c6_dbw = c6_dbw :=
  (elimination_finalize_frame 20 c6_mgrs c6_dbw).1 ⟨⟨20, 7, "", "", 10, 95⟩, by decide, rfl⟩

/-! ## Gap detection for the team-league backfill (`core/backfill.py:26-50`)

`detect_missing_gameweeks` walks downward from `current_gw - 1` to the
highest hardcoded gameweek, collecting gameweeks until it hits one present
in the hardcoded standings or in the database (`break`), then returns the
collected list sorted ascending.  The database probe is modelled as a
boolean oracle `dbHas`. -/

/-- Python `max(standings_by_gw.keys()) if standings_by_gw else 0`. -/
def max_hardcoded (hardcoded : List Nat) : Nat := hardcoded.foldr max 0

/-- The `for gw in range(current_gw - 1, max_hardcoded_gw, -1)` loop with
its two `break`s; `fuel` is the length of the Python range. -/
def collect_missing (hardcoded : List Nat) (dbHas : Nat → Bool) : Nat → Nat → List Nat
  | 0, _ => []
  | fuel + 1, g =>
    if g ∈ hardcoded then []
    else if dbHas g then []
    else g :: collect_missing hardcoded dbHas fuel (g - 1)

/-- Ascending insertion. -/
def insertAsc (x : Nat) : List Nat → List Nat
  | [] => [x]
  | y :: ys => if x ≤ y then x :: y :: ys else y :: insertAsc x ys

/-- Ascending insertion sort — Python `sorted`. -/
def sortAsc : List Nat → List Nat
  | [] => []
  | x :: xs => insertAsc x (sortAsc xs)

/-- Function `detect_missing_gameweeks` (`backfill.py:26-50`). -/
def detect_missing_gameweeks (current_gw : Nat) (hardcoded : List Nat)
    (dbHas : Nat → Bool) : List Nat :=
  if current_gw ≤ 1 then []
  else
    sortAsc (collect_missing hardcoded dbHas
      (current_gw - 1 - max_hardcoded hardcoded) (current_gw - 1))

theorem mem_insertAsc (x a : Nat) : ∀ l : List Nat, a ∈ insertAsc x l ↔ a = x ∨ a ∈ l := by
  intro l
  induction l with
  | nil => simp [insertAsc]
  | cons y ys ih =>
    rw [insertAsc]
    split_ifs with h
    · simp [List.mem_cons]
    · simp only [List.mem_cons, ih]
      tauto

theorem mem_sortAsc (a : Nat) : ∀ l : List Nat, a ∈ sortAsc l ↔ a ∈ l := by
  intro l
  induction l with
  | nil => simp [sortAsc]
  | cons x xs ih =>
    rw [sortAsc, mem_insertAsc]
    simp [ih]

theorem sorted_insertAsc (x : Nat) :
    ∀ l : List Nat, l.Sorted (· ≤ ·) → (insertAsc x l).Sorted (· ≤ ·) := by
  intro l
  induction l with
  | nil => intro _; simp [insertAsc]
  | cons y ys ih =>
    intro h
    rcases List.sorted_cons.mp h with ⟨hy, hys⟩
    rw [insertAsc]
    split_ifs with hxy
    · rw [List.sorted_cons]
      refine ⟨?_, h⟩
      intro b hb
      rcases List.mem_cons.mp hb with rfl | hb'
      · exact hxy
      · exact le_trans hxy (hy b hb')
    · rw [List.sorted_cons]
      refine ⟨?_, ih hys⟩
      intro b hb
      rw [mem_insertAsc] at hb
      rcases hb with rfl | hb'
      · omega
      · exact hy b hb'

theorem sorted_sortAsc : ∀ l : List Nat, (sortAsc l).Sorted (· ≤ ·) := by
  intro l
  induction l with
  | nil => simp [sortAsc]
  | cons x xs ih => exact sorted_insertAsc x _ ih

/-- If every gameweek from `g` up to the start of the walk is absent from
both sources, the walk reaches `g` and collects it. -/
theorem mem_collect_missing (hardcoded : List Nat) (dbHas : Nat → Bool) :
    ∀ (fuel g0 g : Nat), g ≤ g0 → g0 - g < fuel →
      (∀ k, g ≤ k → k ≤ g0 → k ∉ hardcoded ∧ dbHas k = false) →
      g ∈ collect_missing hardcoded dbHas fuel g0 := by
  intro fuel
  induction fuel with
  | zero =>
    intro g0 g _ h2 _
    omega
  | succ fuel ih =>
    intro g0 g hle hlt habs
    rw [collect_missing]
    have h0 := habs g0 (by omega) (le_refl g0)
    rw [if_neg h0.1, if_neg (by simp [h0.2])]
    by_cases heq : g = g0
    · subst heq
      exact List.mem_cons_self _ _
    · exact List.mem_cons_of_mem _
        (ih (g0 - 1) g (by omega) (by omega) (fun k hk1 hk2 => habs k hk1 (by omega)))

/-- C7 (amended): gap detection finds exactly the *contiguous* block of
absent gameweeks directly below the current one — if every gameweek from
`g` up to `current_gw - 1` is absent from both the hardcoded standings and
the database (and `g` lies strictly between the hardcoded baseline and the
current gameweek), then `g` is detected; and the returned list is in
ascending order.  An absent gameweek below an intervening present one is
*not* detected (the walk breaks there) — see the counterexample. -/
theorem detect_missing_contiguous (current_gw : Nat) (hardcoded : List Nat)
    (dbHas : Nat → Bool) :
    (∀ g : Nat, max_hardcoded hardcoded < g → g < current_gw →
      (∀ k, g ≤ k → k < current_gw → k ∉ hardcoded ∧ dbHas k = false) →
      g ∈ detect_missing_gameweeks current_gw hardcoded dbHas) ∧
    (detect_missing_gameweeks current_gw hardcoded dbHas).Sorted (· ≤ ·) := by
  constructor
  · intro g hmax hcur habs
    unfold detect_missing_gameweeks
    rw [if_neg (by omega)]
    rw [mem_sortAsc]
    exact mem_collect_missing hardcoded dbHas _ (current_gw - 1) g (by omega) (by omega)
      (fun k h1 h2 => habs k h1 (by omega))
  · unfold detect_missing_gameweeks
    split_ifs
    · simp
    · exact sorted_sortAsc _

/-- C7 counterexample: with hardcoded baseline gameweek 1, current
gameweek 4 and only gameweek 3 in the database, gameweek 2 is absent from
both sources and lies between baseline and current — yet the detector
returns `[]` (the walk breaks at the present gameweek 3 above it). -/
theorem detect_missing_skips_gap_below_present :
    detect_missing_gameweeks 4 [1] (fun k => decide (k = 3)) = [] ∧
    max_hardcoded [1] < 2 ∧ (2 : Nat) < 4 ∧ (2 : Nat) ∉ [1] ∧
    (fun k : Nat => decide (k = 3)) 2 = false := by
  decide

/-- Witness for C7: current gameweek 6, hardcoded standings up to 2,
nothing in the database — gameweek 3 (and the whole block 3-5) is
detected, in ascending order. -/
theorem detect_missing_contiguous_witness :
    (3 ∈ detect_missing_gameweeks 6 [1, 2] (fun _ => false)) ∧
    (detect_missing_gameweeks 6 [1, 2] (fun _ => false)).Sorted (· ≤ ·) := by
  refine ⟨(detect_missing_contiguous 6 [1, 2] (fun _ => false)).1 3 (by decide) (by decide) ?_,
    (detect_missing_contiguous 6 [1, 2] (fun _ => false)).2⟩
  intro k h1 h2
  refine ⟨?_, rfl⟩
  simp
  omega

/-! ## The backfill walk (`core/backfill.py:77-189`) and its scoring

`_do_backfill` iterates the missing gameweeks in ascending order.  For each
gameweek it fetches live data (a `return` — aborting the whole walk — when
that fails), computes each team's FPL points with
`_calculate_manager_points`, fetches the H2H pairings (degrading to an
empty match list when that fails), derives 3/1/0 league points per pairing,
adds them onto the carried standings and saves the standings row and the
match rows.  External reads are modelled as oracles; the two `save_*` calls
become an event trace. -/

/-- State of the backfill variant of the bench scan (no reserve logic:
a bench player simply must have minutes > 0). -/
structure BSubState where
  used : List Nat
  pts : Int
  d : Int
  m : Int
  f : Int
  g : Int
  deriving DecidableEq, Repr

/-- Inner bench scan of `_calculate_auto_subs` (`backfill.py:263-297`). -/
def scanBenchBF (player_info : List (Nat × PInfo)) (live : List (Nat × LiveStat))
    (s_id : Nat) : BSubState → List Pick → BSubState
  | st, [] => st
  | st, b :: rest =>
    let b_id := b.element
    if b_id ∈ st.used then
      scanBenchBF player_info live s_id st rest
    else
      let s_pos := pos_of player_info s_id
      let b_pos := pos_of player_info b_id
      let b_min := (live_stat live b_id).minutes
      if (s_pos = 1 ∧ b_pos ≠ 1) ∨ (s_pos ≠ 1 ∧ b_pos = 1) then
        scanBenchBF player_info live s_id st rest
      else if b_min = 0 then
        scanBenchBF player_info live s_id st rest
      else
        let d2 := adjust_count 2 s_pos b_pos st.d
        let m2 := adjust_count 3 s_pos b_pos st.m
        let f2 := adjust_count 4 s_pos b_pos st.f
        let g2 := adjust_count 1 s_pos b_pos st.g
        if formation_ok d2 m2 f2 g2 then
          { used := st.used ++ [b_id]
            pts := st.pts + (live_stat live b_id).total_points
            d := d2, m := m2, f := f2, g := g2 }
        else
          scanBenchBF player_info live s_id st rest

/-- Function `_calculate_auto_subs` (`backfill.py:242-299`): auto-sub points for a
finished gameweek (every non-playing starter is eligible). -/
def backfill_calculate_auto_subs (picks : List Pick) (live : List (Nat × LiveStat))
    (player_info : List (Nat × PInfo)) : Int :=
  let starters := picks.take 11
  let bench := picks.drop 11
  let d := starter_count player_info starters 2
  let m := starter_count player_info starters 3
  let f := starter_count player_info starters 4
  let g := starter_count player_info starters 1
  let non_playing := starters.filter (fun p =>
    decide ((live_stat live p.element).minutes = 0))
  (non_playing.foldl
    (fun st s => scanBenchBF player_info live s.element st bench)
    ⟨[], 0, d, m, f, g⟩).pts

/-- Function `_calculate_manager_points` (`backfill.py:302-332`): custom league
rules — captain doubled when played, zeroed otherwise, vice doubled when
the captain did not play, no chips, auto subs added, hits subtracted.
An empty picks list returns 0 before the hit is subtracted. -/
def backfill_calculate_manager_points (picks_data : Option PicksData)
    (live : List (Nat × LiveStat)) (player_info : List (Nat × PInfo)) : Int :=
  match picks_data with
  | none => 0
  | some pd =>
    if pd.picks = [] then 0
    else
      let picks := pd.picks
      let hits := pd.event_transfers_cost
      let captain_id := (picks.find? (fun p => p.is_captain)).map Pick.element
      let captain_minutes : Nat :=
        match captain_id with
        | some cid => (live_stat live cid).minutes
        | none => 0
      let captain_played : Bool := decide (captain_minutes > 0)
      let base := (picks.take 11).foldl (fun total pick =>
        let pts := (live_stat live pick.element).total_points
        if pick.is_captain then
          total + (if captain_played then pts * 2 else 0)
        else if pick.is_vice_captain && !captain_played then
          (if (live_stat live pick.element).minutes > 0 then total + pts * 2 else total + pts)
        else total + pts) 0
      base + backfill_calculate_auto_subs picks live player_info - hits

/-- One H2H pairing row from the matches endpoint (`entry_1_entry` /
`entry_2_entry` may be absent). -/
structure RawMatch where
  entry_1_entry : Option Nat
  entry_2_entry : Option Nat
  deriving DecidableEq, Repr

/-- One deduplicated team-level match with both sides' gameweek points. -/
structure TeamMatch where
  team1 : Nat
  team2 : Nat
  points1 : Int
  points2 : Int
  deriving DecidableEq, Repr

/-- Python dict assignment `d[k] = v`: replace the first binding of `k`,
or append when absent. -/
def setAssoc {α : Type} : List (Nat × α) → Nat → α → List (Nat × α)
  | [], k, v => [(k, v)]
  | (k2, v2) :: rest, k, v =>
    if k2 = k then (k, v) :: rest else (k2, v2) :: setAssoc rest k v

/-- Python `team_1 = entry_to_team.get(..); team_2 = ..; if team_1 and team_2:`
— both entries of a pairing resolved to their teams, `none` otherwise. -/
def resolve_pair (e2t : List (Nat × Nat)) (mr : RawMatch) : Option (Nat × Nat) :=
  match mr.entry_1_entry.bind (alookup e2t), mr.entry_2_entry.bind (alookup e2t) with
  | some t1, some t2 => some (t1, t2)
  | _, _ => none

/-- The duplicate-pairing test (`already`, `backfill.py:154-158`). -/
def pair_already (ms : List TeamMatch) (t1 t2 : Nat) : Bool :=
  ms.any (fun m => (decide (m.team1 = t1) && decide (m.team2 = t2)) ||
    (decide (m.team1 = t2) && decide (m.team2 = t1)))

/-- The `for match in matches_data['results']` loop (`backfill.py:147-172`):
resolve both entries to teams, skip unresolved and duplicate pairings,
record the match and assign 3/1/0 gameweek league points by dict
assignment. -/
def processRawMatches (e2t : List (Nat × Nat)) (gwPts : List (Nat × Int)) :
    List RawMatch → List TeamMatch × List (Nat × Nat) → List TeamMatch × List (Nat × Nat)
  | [], st => st
  | mr :: rest, (ms, lgp) =>
    match resolve_pair e2t mr with
    | some (t1, t2) =>
      if pair_already ms t1 t2 then
        processRawMatches e2t gwPts rest (ms, lgp)
      else
        let p1 := alookupD gwPts t1 0
        let p2 := alookupD gwPts t2 0
        let ms2 := ms ++ [⟨t1, t2, p1, p2⟩]
        let lgp2 :=
          if p1 > p2 then setAssoc lgp t1 3
          else if p2 > p1 then setAssoc lgp t2 3
          else setAssoc (setAssoc lgp t1 1) t2 1
        processRawMatches e2t gwPts rest (ms2, lgp2)
    | none => processRawMatches e2t gwPts rest (ms, lgp)

/-- Step 3 of the walk: the match list and per-team gameweek league points
(`gw_league_points` starts at 0 for every team; a failed or malformed
matches fetch leaves it all-zero with no matches). -/
def computeMatchesAndPoints (raws : Option (List RawMatch)) (e2t : List (Nat × Nat))
    (gwPts : List (Nat × Int)) (teams : List (Nat × List Nat)) :
    List TeamMatch × List (Nat × Nat) :=
  let lgp0 := teams.map (fun t => (t.1, (0 : Nat)))
  match raws with
  | some rs => processRawMatches e2t gwPts rs ([], lgp0)
  | none => ([], lgp0)

/-- Step 4: `new_standings[team] = current + gw_league_points` per team. -/
def accumulate_standings (teams : List (Nat × List Nat)) (cur : List (Nat × Nat))
    (lgp : List (Nat × Nat)) : List (Nat × Nat) :=
  teams.map (fun t => (t.1, alookupD cur t.1 0 + alookupD lgp t.1 0))

/-- Step 4 for the cumulative FPL totals. -/
def accumulate_totals (teams : List (Nat × List Nat)) (tot : List (Nat × Int))
    (gwPts : List (Nat × Int)) : List (Nat × Int) :=
  teams.map (fun t => (t.1, alookupD tot t.1 0 + alookupD gwPts t.1 0))

/-- Step 2: each team's gameweek FPL points — the sum of its managers'
points, a manager whose picks fetch failed contributing 0. -/
def gw_team_points_calc (teams : List (Nat × List Nat))
    (picksO : Nat → Option PicksData) (live : List (Nat × LiveStat))
    (player_info : List (Nat × PInfo)) : List (Nat × Int) :=
  teams.map (fun t => (t.1, (t.2.map (fun eid =>
    match picksO eid with
    | some pd => backfill_calculate_manager_points (some pd) live player_info
    | none => 0)).sum))

/-- The `entry_to_team` reverse lookup built from the team rosters. -/
def entry_to_team (teams : List (Nat × List Nat)) : List (Nat × Nat) :=
  teams.flatMap (fun t => t.2.map (fun e => (e, t.1)))

/-- One database write performed by the walk. -/
inductive SaveEvent where
  | standingsRow (gw : Nat) (st : List (Nat × Nat)) (tot : List (Nat × Int))
  | matchesRow (gw : Nat) (ms : List TeamMatch)
  deriving DecidableEq, Repr

/-- Kind (standings?) and gameweek of one write. -/
def saveEventKey : SaveEvent → Bool × Nat
  | .standingsRow gw _ _ => (true, gw)
  | .matchesRow gw _ => (false, gw)

/-- The `for gw in missing_gws` walk of `_do_backfill`
(`backfill.py:106-189`): live-data failure aborts (`return`), otherwise the
gameweek's standings and matches are saved and the cumulative state is
chained to the next gameweek. -/
def do_backfill_loop (teams : List (Nat × List Nat)) (e2t : List (Nat × Nat))
    (pinfo : List (Nat × PInfo)) (liveO : Nat → Option (List (Nat × LiveStat)))
    (picksO : Nat → Nat → Option PicksData) (matchesO : Nat → Option (List RawMatch)) :
    List Nat → List (Nat × Nat) → List (Nat × Int) → List SaveEvent
  | [], _, _ => []
  | gw :: rest, cur, tot =>
    match liveO gw with
    | none => []
    | some live =>
      let gwPts := gw_team_points_calc teams (fun e => picksO e gw) live pinfo
      let mlp := computeMatchesAndPoints (matchesO gw) e2t gwPts teams
      let newSt := accumulate_standings teams cur mlp.2
      let newTot := accumulate_totals teams tot gwPts
      SaveEvent.standingsRow gw newSt newTot :: SaveEvent.matchesRow gw mlp.1 ::
        do_backfill_loop teams e2t pinfo liveO picksO matchesO rest newSt newTot

/-- Function `_do_backfill` (`backfill.py:77-189`): a failed bootstrap fetch aborts
before any write; otherwise the walk runs from the supplied base state. -/
def do_backfill (teams : List (Nat × List Nat)) (e2t : List (Nat × Nat))
    (bootstrap : Option (List (Nat × PInfo)))
    (liveO : Nat → Option (List (Nat × LiveStat)))
    (picksO : Nat → Nat → Option PicksData) (matchesO : Nat → Option (List RawMatch))
    (missing : List Nat) (cur : List (Nat × Nat)) (tot : List (Nat × Int)) :
    List SaveEvent :=
  match bootstrap with
  | none => []
  | some pinfo => do_backfill_loop teams e2t pinfo liveO picksO matchesO missing cur tot

/-- C8 (amended): the walk writes the standings row and the match row of a
gameweek together, for exactly the longest prefix of the missing gameweeks
whose live-data fetch succeeds — a gameweek whose live fetch fails and all
later gameweeks are not written, while earlier gameweeks stay written; a
failed H2H match fetch does *not* block the commit (the gameweek is still
saved, with an empty match list); and a failed bootstrap fetch writes
nothing at all. -/
theorem backfill_commit_trace (teams : List (Nat × List Nat)) (e2t : List (Nat × Nat))
    (pinfo : List (Nat × PInfo)) (liveO : Nat → Option (List (Nat × LiveStat)))
    (picksO : Nat → Nat → Option PicksData) (matchesO : Nat → Option (List RawMatch))
    (missing : List Nat) (cur : List (Nat × Nat)) (tot : List (Nat × Int)) :
    (do_backfill teams e2t none liveO picksO matchesO missing cur tot = []) ∧
    ((do_backfill teams e2t (some pinfo) liveO picksO matchesO missing cur tot).map
        saveEventKey =
      (missing.takeWhile (fun g => (liveO g).isSome)).flatMap
        (fun g => [(true, g), (false, g)])) := by
  constructor
  · rfl
  · show (do_backfill_loop teams e2t pinfo liveO picksO matchesO missing cur tot).map
        saveEventKey = _
    induction missing generalizing cur tot with
    | nil => simp [do_backfill_loop]
    | cons gw rest ih =>
      rw [do_backfill_loop]
      cases hlive : liveO gw with
      | none => simp [List.takeWhile_cons, hlive]
      | some live =>
        simp only [List.takeWhile_cons, hlive, Option.isSome_some, if_true]
        simp only [List.map_cons, saveEventKey, List.flatMap_cons]
        rw [ih]
        simp

/-- Oracles for the C8 counterexample: live data present, H2H matches
endpoint failing. -/
def c8_teams : List (Nat × List Nat) := [(1, [101]), (2, [102])]

/-- C8 counterexample: with the matches fetch failing (`none`) for
gameweek 2, the walk still commits the gameweek — a standings row and an
(empty) matches row are written — refuting "committed only if both the
scoring computation and the match-result computation succeed". -/
theorem backfill_commits_despite_match_failure :
    do_backfill c8_teams (entry_to_team c8_teams) (some []) (fun _ => some [])
        (fun _ _ => none) (fun _ => none) [2] [(1, 0), (2, 0)] [(1, 0), (2, 0)] =
      [SaveEvent.standingsRow 2 [(1, 0), (2, 0)] [(1, 0), (2, 0)],
        SaveEvent.matchesRow 2 []] ∧
    (fun _ : Nat => (none : Option (List RawMatch))) 2 = none := by
  constructor
  · rfl
  · rfl

/-! ### The 3/1/0 league-points rule (C9) -/

/-- The team pairs the match loop actually processes, in order. -/
def resolved_pairs (e2t : List (Nat × Nat)) (raws : List RawMatch) : List (Nat × Nat) :=
  raws.filterMap (resolve_pair e2t)

theorem alookup_setAssoc_self {α : Type} (k : Nat) (v : α) :
    ∀ l : List (Nat × α), alookup (setAssoc l k v) k = some v := by
  intro l
  induction l with
  | nil => simp [setAssoc, alookup]
  | cons p rest ih =>
    obtain ⟨k2, v2⟩ := p
    rw [setAssoc]
    split_ifs with h
    · simp [alookup]
    · rw [alookup]
      rw [if_neg h]
      exact ih

theorem alookup_setAssoc_other {α : Type} (k k2 : Nat) (v : α) (hne : k2 ≠ k) :
    ∀ l : List (Nat × α), alookup (setAssoc l k v) k2 = alookup l k2 := by
  intro l
  induction l with
  | nil =>
    rw [setAssoc, alookup, alookup, if_neg (fun h : k = k2 => hne h.symm), alookup]
  | cons p rest ih =>
    obtain ⟨k3, v3⟩ := p
    rw [setAssoc]
    split_ifs with h
    · subst h
      rw [alookup, alookup]
      rw [if_neg (fun h2 => hne h2.symm), if_neg (fun h2 => hne h2.symm)]
    · rw [alookup, alookup]
      split_ifs with h2
      · rfl
      · exact ih

theorem alookupD_setAssoc_self {α : Type} (l : List (Nat × α)) (k : Nat) (v d : α) :
    alookupD (setAssoc l k v) k d = v := by
  rw [alookupD, alookup_setAssoc_self]
  rfl

theorem alookupD_setAssoc_other {α : Type} (l : List (Nat × α)) (k k2 : Nat) (v d : α)
    (hne : k2 ≠ k) : alookupD (setAssoc l k v) k2 d = alookupD l k2 d := by
  rw [alookupD, alookup_setAssoc_other k k2 v hne, alookupD]

theorem alookupD_init_zero (teams : List (Nat × List Nat)) (k : Nat) :
    alookupD (teams.map (fun t => (t.1, (0 : Nat)))) k 0 = 0 := by
  induction teams with
  | nil => rfl
  | cons t rest ih =>
    rw [List.map_cons, alookupD, alookup]
    split_ifs with h
    · rfl
    · exact ih

/-- Unfolding: unresolved pairing rows are skipped. -/
theorem processRaw_cons_none (e2t : List (Nat × Nat)) (gwPts : List (Nat × Int))
    (mr : RawMatch) (rest : List RawMatch) (ms : List TeamMatch)
    (lgp : List (Nat × Nat)) (h : resolve_pair e2t mr = none) :
    processRawMatches e2t gwPts (mr :: rest) (ms, lgp) =
      processRawMatches e2t gwPts rest (ms, lgp) := by
  rw [processRawMatches, h]

/-- Unfolding: a resolved, already-recorded pairing is skipped. -/
theorem processRaw_cons_dup (e2t : List (Nat × Nat)) (gwPts : List (Nat × Int))
    (mr : RawMatch) (rest : List RawMatch) (ms : List TeamMatch)
    (lgp : List (Nat × Nat)) (t1 t2 : Nat) (h : resolve_pair e2t mr = some (t1, t2))
    (hdup : pair_already ms t1 t2 = true) :
    processRawMatches e2t gwPts (mr :: rest) (ms, lgp) =
      processRawMatches e2t gwPts rest (ms, lgp) := by
  rw [processRawMatches, h]
  simp only [hdup, if_true]

/-- Unfolding: a fresh resolved pairing is recorded and scored. -/
theorem processRaw_cons_fresh (e2t : List (Nat × Nat)) (gwPts : List (Nat × Int))
    (mr : RawMatch) (rest : List RawMatch) (ms : List TeamMatch)
    (lgp : List (Nat × Nat)) (t1 t2 : Nat) (h : resolve_pair e2t mr = some (t1, t2))
    (hdup : pair_already ms t1 t2 = false) :
    processRawMatches e2t gwPts (mr :: rest) (ms, lgp) =
      processRawMatches e2t gwPts rest
        (ms ++ [⟨t1, t2, alookupD gwPts t1 0, alookupD gwPts t2 0⟩],
         if alookupD gwPts t1 0 > alookupD gwPts t2 0 then setAssoc lgp t1 3
         else if alookupD gwPts t2 0 > alookupD gwPts t1 0 then setAssoc lgp t2 3
         else setAssoc (setAssoc lgp t1 1) t2 1) := by
  rw [processRawMatches, h]
  simp only [hdup, Bool.false_eq_true, if_false]

theorem resolved_pairs_cons_none (e2t : List (Nat × Nat)) (mr : RawMatch)
    (rest : List RawMatch) (h : resolve_pair e2t mr = none) :
    resolved_pairs e2t (mr :: rest) = resolved_pairs e2t rest := by
  unfold resolved_pairs
  rw [List.filterMap_cons, h]

theorem resolved_pairs_cons_some (e2t : List (Nat × Nat)) (mr : RawMatch)
    (rest : List RawMatch) (p : Nat × Nat) (h : resolve_pair e2t mr = some p) :
    resolved_pairs e2t (mr :: rest) = p :: resolved_pairs e2t rest := by
  unfold resolved_pairs
  rw [List.filterMap_cons, h]

/-- Gameweek league points of a team mentioned in no processed pairing are
left untouched by the match loop. -/
theorem processRaw_untouched (e2t : List (Nat × Nat)) (gwPts : List (Nat × Int)) :
    ∀ (raws : List RawMatch) (ms : List TeamMatch) (lgp : List (Nat × Nat)) (k : Nat),
      (∀ p ∈ resolved_pairs e2t raws, p.1 ≠ k ∧ p.2 ≠ k) →
      alookupD (processRawMatches e2t gwPts raws (ms, lgp)).2 k 0 = alookupD lgp k 0 := by
  intro raws
  induction raws with
  | nil => intro ms lgp k _; rfl
  | cons mr rest ih =>
    intro ms lgp k hk
    cases h : resolve_pair e2t mr with
    | none =>
      rw [processRaw_cons_none e2t gwPts mr rest ms lgp h]
      exact ih ms lgp k (by rw [resolved_pairs_cons_none e2t mr rest h] at hk; exact hk)
    | some p =>
      obtain ⟨t1, t2⟩ := p
      rw [resolved_pairs_cons_some e2t mr rest (t1, t2) h] at hk
      have hk1 : t1 ≠ k := (hk (t1, t2) (by simp)).1
      have hk2 : t2 ≠ k := (hk (t1, t2) (by simp)).2
      have hkrest : ∀ p ∈ resolved_pairs e2t rest, p.1 ≠ k ∧ p.2 ≠ k :=
        fun p hp => hk p (by simp [hp])
      cases hdup : pair_already ms t1 t2 with
      | true =>
        rw [processRaw_cons_dup e2t gwPts mr rest ms lgp t1 t2 h hdup]
        exact ih ms lgp k hkrest
      | false =>
        rw [processRaw_cons_fresh e2t gwPts mr rest ms lgp t1 t2 h hdup]
        rw [ih _ _ k hkrest]
        split_ifs with h1 h2
        · exact alookupD_setAssoc_other lgp t1 k 3 0 hk1.symm
        · exact alookupD_setAssoc_other lgp t2 k 3 0 hk2.symm
        · rw [alookupD_setAssoc_other _ t2 k 1 0 hk2.symm,
            alookupD_setAssoc_other lgp t1 k 1 0 hk1.symm]

/-- Core of the league-points rule: when every team appears in at most one
processed pairing, the pairing (a, b) scores `3 / 0` for a strictly higher
`a`-score, `0 / 3` for a strictly higher `b`-score and `1 / 1` on a tie. -/
theorem processRaw_scores (e2t : List (Nat × Nat)) (gwPts : List (Nat × Int)) :
    ∀ (raws : List RawMatch) (ms : List TeamMatch) (lgp : List (Nat × Nat)) (a b : Nat),
      (a, b) ∈ resolved_pairs e2t raws →
      ((resolved_pairs e2t raws).flatMap (fun p => [p.1, p.2])).Nodup →
      (∀ m ∈ ms, m.team1 ≠ a ∧ m.team2 ≠ a ∧ m.team1 ≠ b ∧ m.team2 ≠ b) →
      alookupD lgp a 0 = 0 → alookupD lgp b 0 = 0 →
      alookupD (processRawMatches e2t gwPts raws (ms, lgp)).2 a 0 =
        (if alookupD gwPts a 0 > alookupD gwPts b 0 then 3
         else if alookupD gwPts b 0 > alookupD gwPts a 0 then 0 else 1) ∧
      alookupD (processRawMatches e2t gwPts raws (ms, lgp)).2 b 0 =
        (if alookupD gwPts b 0 > alookupD gwPts a 0 then 3
         else if alookupD gwPts a 0 > alookupD gwPts b 0 then 0 else 1) := by
  intro raws
  induction raws with
  | nil =>
    intro ms lgp a b hmem
    simp [resolved_pairs] at hmem
  | cons mr rest ih =>
    intro ms lgp a b hmem hnd hms ha0 hb0
    cases h : resolve_pair e2t mr with
    | none =>
      rw [resolved_pairs_cons_none e2t mr rest h] at hmem hnd
      rw [processRaw_cons_none e2t gwPts mr rest ms lgp h]
      exact ih ms lgp a b hmem hnd hms ha0 hb0
    | some p =>
      obtain ⟨t1, t2⟩ := p
      rw [resolved_pairs_cons_some e2t mr rest (t1, t2) h] at hmem hnd
      rw [List.flatMap_cons] at hnd
      have hnd' := hnd
      simp only [List.cons_append, List.nil_append, List.nodup_cons] at hnd'
      obtain ⟨ht1, ht2, hndrest⟩ := hnd'
      rcases List.mem_cons.mp hmem with hhead | htail
      · -- (a, b) is the pairing resolved from this row
        obtain ⟨rfl, rfl⟩ := Prod.ext_iff.mp hhead
        have hab : a ≠ b := by
          intro hcontra
          exact ht1 (by simp [hcontra])
        clear hhead
        have hdup : pair_already ms a b = false := by
          rw [pair_already, List.any_eq_false]
          intro m hm
          obtain ⟨m1, m2, m3, m4⟩ := hms m hm
          simp [m1, m2, m3, m4]
        rw [processRaw_cons_fresh e2t gwPts mr rest ms lgp a b h hdup]
        have hnotin : ∀ p ∈ resolved_pairs e2t rest, p.1 ≠ a ∧ p.2 ≠ a := by
          intro p hp
          constructor
          · intro hc
            exact ht1 (List.mem_cons_of_mem _ (List.mem_flatMap.mpr ⟨p, hp, by simp [hc]⟩))
          · intro hc
            exact ht1 (List.mem_cons_of_mem _ (List.mem_flatMap.mpr ⟨p, hp, by simp [hc]⟩))
        have hnotinb : ∀ p ∈ resolved_pairs e2t rest, p.1 ≠ b ∧ p.2 ≠ b := by
          intro p hp
          constructor
          · intro hc
            exact ht2 (List.mem_flatMap.mpr ⟨p, hp, by simp [hc]⟩)
          · intro hc
            exact ht2 (List.mem_flatMap.mpr ⟨p, hp, by simp [hc]⟩)
        rw [processRaw_untouched e2t gwPts rest _ _ a hnotin,
          processRaw_untouched e2t gwPts rest _ _ b hnotinb]
        by_cases h1 : alookupD gwPts a 0 > alookupD gwPts b 0
        · have h2 : ¬alookupD gwPts b 0 > alookupD gwPts a 0 := by omega
          simp only [h1, h2, if_true, if_false]
          constructor
          · rw [alookupD_setAssoc_self]
          · rw [alookupD_setAssoc_other lgp a b 3 0 hab.symm]
            exact hb0
        · by_cases h2 : alookupD gwPts b 0 > alookupD gwPts a 0
          · simp only [h1, h2, if_true, if_false]
            constructor
            · rw [alookupD_setAssoc_other lgp b a 3 0 hab]
              exact ha0
            · rw [alookupD_setAssoc_self]
          · simp only [h1, h2, if_false]
            constructor
            · rw [alookupD_setAssoc_other (setAssoc lgp a 1) b a 1 0 hab,
                alookupD_setAssoc_self]
            · rw [alookupD_setAssoc_self]
      · -- (a, b) comes from a later row
        have hamem : a ∈ (resolved_pairs e2t rest).flatMap (fun p => [p.1, p.2]) :=
          List.mem_flatMap.mpr ⟨(a, b), htail, by simp⟩
        have hbmem : b ∈ (resolved_pairs e2t rest).flatMap (fun p => [p.1, p.2]) :=
          List.mem_flatMap.mpr ⟨(a, b), htail, by simp⟩
        have hat1 : t1 ≠ a := fun hc => ht1 (List.mem_cons_of_mem _ (hc ▸ hamem))
        have hat2 : t2 ≠ a := fun hc => ht2 (hc ▸ hamem)
        have hbt1 : t1 ≠ b := fun hc => ht1 (List.mem_cons_of_mem _ (hc ▸ hbmem))
        have hbt2 : t2 ≠ b := fun hc => ht2 (hc ▸ hbmem)
        cases hdup : pair_already ms t1 t2 with
        | true =>
          rw [processRaw_cons_dup e2t gwPts mr rest ms lgp t1 t2 h hdup]
          exact ih ms lgp a b htail hndrest hms ha0 hb0
        | false =>
          rw [processRaw_cons_fresh e2t gwPts mr rest ms lgp t1 t2 h hdup]
          refine ih _ _ a b htail hndrest ?_ ?_ ?_
          · intro m hm
            rcases List.mem_append.mp hm with hm1 | hm2
            · exact hms m hm1
            · rcases List.mem_singleton.mp hm2 with rfl
              exact ⟨hat1, hat2, hbt1, hbt2⟩
          · split_ifs with h1 h2
            · rw [alookupD_setAssoc_other lgp t1 a 3 0 hat1.symm]; exact ha0
            · rw [alookupD_setAssoc_other lgp t2 a 3 0 hat2.symm]; exact ha0
            · rw [alookupD_setAssoc_other _ t2 a 1 0 hat2.symm,
                alookupD_setAssoc_other lgp t1 a 1 0 hat1.symm]
              exact ha0
          · split_ifs with h1 h2
            · rw [alookupD_setAssoc_other lgp t1 b 3 0 hbt1.symm]; exact hb0
            · rw [alookupD_setAssoc_other lgp t2 b 3 0 hbt2.symm]; exact hb0
            · rw [alookupD_setAssoc_other _ t2 b 1 0 hbt2.symm,
                alookupD_setAssoc_other lgp t1 b 1 0 hbt1.symm]
              exact hb0

/-- Python `new_standings[team] = current + gw_league_points` for any team in the
roster map (step 4 of the walk). -/
theorem alookupD_accumulate (cur : List (Nat × Nat)) (lgp : List (Nat × Nat)) (k : Nat) :
    ∀ teams : List (Nat × List Nat), k ∈ teams.map Prod.fst →
      alookupD (accumulate_standings teams cur lgp) k 0 =
        alookupD cur k 0 + alookupD lgp k 0 := by
  intro teams
  induction teams with
  | nil => intro hk; simp at hk
  | cons t rest ih =>
    intro hk
    rw [List.map_cons] at hk
    rw [accumulate_standings, List.map_cons, alookupD, alookup]
    split_ifs with h
    · subst h
      rfl
    · rcases List.mem_cons.mp hk with h1 | h2
      · exact absurd h1.symm h
      · exact ih h2

/-- C9: for an H2H pairing (a, b) processed in a period — with each team in
at most one pairing — the side with the strictly higher period score gets 3
gameweek league points and the other 0, a tie gives both sides 1; and the
saved standings add these points on top of the carried cumulative totals. -/
theorem h2h_league_points_rule (raws : List RawMatch) (e2t : List (Nat × Nat))
    (gwPts : List (Nat × Int)) (teams : List (Nat × List Nat)) (cur : List (Nat × Nat))
    (a b : Nat)
    (hmem : (a, b) ∈ resolved_pairs e2t raws)
    (hnd : ((resolved_pairs e2t raws).flatMap (fun p => [p.1, p.2])).Nodup) :
    alookupD (computeMatchesAndPoints (some raws) e2t gwPts teams).2 a 0 =
      (if alookupD gwPts a 0 > alookupD gwPts b 0 then 3
       else if alookupD gwPts b 0 > alookupD gwPts a 0 then 0 else 1) ∧
    alookupD (computeMatchesAndPoints (some raws) e2t gwPts teams).2 b 0 =
      (if alookupD gwPts b 0 > alookupD gwPts a 0 then 3
       else if alookupD gwPts a 0 > alookupD gwPts b 0 then 0 else 1) ∧
    (a ∈ teams.map Prod.fst →
      alookupD (accumulate_standings teams cur
          (computeMatchesAndPoints (some raws) e2t gwPts teams).2) a 0 =
        alookupD cur a 0 +
          alookupD (computeMatchesAndPoints (some raws) e2t gwPts teams).2 a 0) := by
  have hzero : ∀ k : Nat, alookupD (teams.map (fun t => (t.1, (0 : Nat)))) k 0 = 0 :=
    alookupD_init_zero teams
  have hscores := processRaw_scores e2t gwPts raws []
    (teams.map (fun t => (t.1, (0 : Nat)))) a b hmem hnd
    (by intro m hm; simp at hm) (hzero a) (hzero b)
  refine ⟨hscores.1, hscores.2, fun hk => alookupD_accumulate cur _ a teams hk⟩

/-- H2H rows for the C9 witness: entries 101-104 resolve to teams 1-4. -/
def c9_raws : List RawMatch := [⟨some 101, some 102⟩, ⟨some 103, some 104⟩]

/-- Entry-to-team map for the C9 witness. -/
def c9_e2t : List (Nat × Nat) := [(101, 1), (102, 2), (103, 3), (104, 4)]

/-- Period scores for the C9 witness: 55 vs 40 and 48 vs 48. -/
def c9_gwPts : List (Nat × Int) := [(1, 55), (2, 40), (3, 48), (4, 48)]

/-- Team rosters for the C9 witness. -/
def c9_teams : List (Nat × List Nat) := [(1, [101]), (2, [102]), (3, [103]), (4, [104])]

/-- Carried cumulative standings for the C9 witness. -/
def c9_cur : List (Nat × Nat) := [(1, 10), (2, 20), (3, 30), (4, 40)]

/-- Witness for C9: 55 vs 40 gives 3 and 0, 48 vs 48 gives 1 and 1, and the
winner's cumulative total rises from 10 to 13. -/
theorem h2h_league_points_rule_witness :
    alookupD (computeMatchesAndPoints (some c9_raws) c9_e2t c9_gwPts c9_teams).2 1 0 = 3 ∧
    alookupD (computeMatchesAndPoints (some c9_raws) c9_e2t c9_gwPts c9_teams).2 2 0 = 0 ∧
    alookupD (computeMatchesAndPoints (some c9_raws) c9_e2t c9_gwPts c9_teams).2 3 0 = 1 ∧
    alookupD (computeMatchesAndPoints (some c9_raws) c9_e2t c9_gwPts c9_teams).2 4 0 = 1 ∧
    alookupD (accumulate_standings c9_teams c9_cur
      (computeMatchesAndPoints (some c9_raws) c9_e2t c9_gwPts c9_teams).2) 1 0 = 13 := by
  have h1 := h2h_league_points_rule c9_raws c9_e2t c9_gwPts c9_teams c9_cur 1 2
    (by decide) (by decide)
  have h2 := h2h_league_points_rule c9_raws c9_e2t c9_gwPts c9_teams c9_cur 3 4
    (by decide) (by decide)
  refine ⟨?_, ?_, ?_, ?_, ?_⟩
  · rw [h1.1]; decide
  · rw [h1.2.1]; decide
  · rw [h2.1]; decide
  · rw [h2.2.1]; decide
  · rw [h1.2.2 (by decide), h1.1]; decide

/-! ## `get_latest_team_league_standings` (`models.py:266-275`, C10)

The helper chains `db.session.query(max(gameweek)).filter_by(league_type)`
(`None` when no row matches) with `if latest:` — and then calls
`get_team_league_standings(league_type, latest)`.  That function is never
defined at module scope: its intended body sits as unreachable code after
the `return` statements of `save_team_league_matches`
(`models.py:242-254`), so the call raises `NameError` at run time.  The
embedding models that call as an error value. -/

/-- One `team_league_standings` row (fields relevant to the lookup). -/
structure TLSRow where
  league_type : String
  gameweek : Nat
  team_name : String
  league_points : Nat
  total_fpl_points : Int
  deriving DecidableEq, Repr

/-- Python `db.func.max` over a list of gameweeks (`None` on the empty set). -/
def max_gw : List Nat → Option Nat
  | [] => none
  | g :: gs =>
    match max_gw gs with
    | none => some g
    | some m => some (max g m)

theorem max_gw_mem : ∀ (l : List Nat) (m : Nat), max_gw l = some m → m ∈ l := by
  intro l
  induction l with
  | nil => intro m h; cases h
  | cons g gs ih =>
    intro m h
    rw [max_gw] at h
    cases hgs : max_gw gs with
    | none =>
      rw [hgs] at h
      cases h
      simp
    | some m2 =>
      rw [hgs] at h
      cases h
      rcases max_choice g m2 with hc | hc
      · rw [hc]
        simp
      · rw [hc]
        exact List.mem_cons_of_mem _ (ih m2 hgs)

theorem max_gw_cons_isSome (x : Nat) (xs : List Nat) : ∃ m, max_gw (x :: xs) = some m := by
  rw [max_gw]
  cases max_gw xs with
  | none => exact ⟨x, rfl⟩
  | some m => exact ⟨max x m, rfl⟩

/-- Function `get_latest_team_league_standings` (`models.py:266-275`): the scalar
max over the league's rows, the `if latest:` truthiness test, and — on the
truthy path — the call to the undefined `get_team_league_standings`,
which raises `NameError`. -/
def get_latest_team_league_standings (rows : List TLSRow) (lt : String) :
    Except String (List (Nat × Nat) × Nat) :=
  match max_gw ((rows.filter (fun r => r.league_type = lt)).map TLSRow.gameweek) with
  | none => .ok ([], 0)
  | some latest =>
    if latest = 0 then .ok ([], 0)
    else .error "NameError: name get_team_league_standings is not defined"

/-- C10: whenever at least one standings row is persisted for the league
(all persisted rows carrying a real gameweek number ≥ 1), the latest-
standings helper raises `NameError` instead of returning data, because the
`get_team_league_standings` it calls is never defined; with no matching
row it returns the empty dict and gameweek 0. -/
theorem get_latest_standings_nameerror (rows : List TLSRow) (lt : String) :
    ((∃ r ∈ rows, r.league_type = lt) →
      (∀ r ∈ rows, 1 ≤ r.gameweek) →
      get_latest_team_league_standings rows lt =
        .error "NameError: name get_team_league_standings is not defined") ∧
    ((∀ r ∈ rows, r.league_type ≠ lt) →
      get_latest_team_league_standings rows lt = .ok ([], 0)) := by
  constructor
  · rintro ⟨r, hr, hlt⟩ hval
    unfold get_latest_team_league_standings
    have hmem : r.gameweek ∈ (rows.filter (fun r => r.league_type = lt)).map TLSRow.gameweek :=
      List.mem_map.mpr ⟨r, List.mem_filter.mpr ⟨hr, by simp [hlt]⟩, rfl⟩
    rcases List.exists_cons_of_ne_nil (List.ne_nil_of_mem hmem) with ⟨x, xs, hx⟩
    rw [hx]
    rcases max_gw_cons_isSome x xs with ⟨m, hm⟩
    rw [hm]
    have hmmem : m ∈ (rows.filter (fun r => r.league_type = lt)).map TLSRow.gameweek := by
      rw [hx]
      exact max_gw_mem _ m hm
    rcases List.mem_map.mp hmmem with ⟨r2, hr2, hg⟩
    have h1 : 1 ≤ m := hg ▸ hval r2 (List.mem_filter.mp hr2).1
    dsimp only
    rw [if_neg (by omega)]
  · intro hno
    unfold get_latest_team_league_standings
    have hfil : rows.filter (fun r => r.league_type = lt) = [] := by
      rw [List.filter_eq_nil_iff]
      intro r hr
      simp [hno r hr]
    rw [hfil]
    rfl

/-- Persisted rows for the C10 witness: one row for the libyan league. -/
def c10_rows : List TLSRow := [⟨"libyan", 5, "team", 9, 100⟩]

/-- Witness for C10: with one libyan row the helper raises `NameError`;
querying the arab league (no rows) returns the empty result. -/
theorem get_latest_standings_nameerror_witness :
    get_latest_team_league_standings c10_rows "libyan" =
      .error "NameError: name get_team_league_standings is not defined" ∧
    get_latest_team_league_standings c10_rows "arab" = .ok ([], 0) := by
  constructor
  · exact (get_latest_standings_nameerror c10_rows "libyan").1
      ⟨⟨"libyan", 5, "team", 9, 100⟩, by decide, rfl⟩ (by decide)
  · exact (get_latest_standings_nameerror c10_rows "arab").2 (by decide)

end LibyaFPL
